import Mathlib

/-!
Verification development for the SQLSchemaVisualizer backend core.

The TypeScript/JavaScript sources are shallowly embedded: JS strings become
`List Char`, byte buffers become `List Nat` (each element < 256), JS `Map`s
and the metadata store become association lists / row lists, and fallible
code returns `Except`.  External collaborators (node `crypto`, the `pg` and
`mysql2` drivers, `node-cache`, the metadata database) are modelled by their
interface contracts; everything else is translated directly from the source
files.  Definitions come first, all theorems follow.
-/

namespace SchemaViz

/-- Strings of the embedded program are lists of characters. -/
abbrev Str := List Char

/-- JS `\s` whitespace class restricted to the ASCII whitespace characters
(space, tab, line feed, vertical tab, form feed, carriage return). -/
def isSpace (c : Char) : Bool :=
  c.toNat = 32 || c.toNat = 9 || c.toNat = 10 || c.toNat = 11 || c.toNat = 12 || c.toNat = 13

/-- JS `String.prototype.split` with a single-character separator:
`"".split(sep)` is `[""]`, and every separator occurrence opens a new field. -/
def splitOn (sep : Char) : Str → List Str
  | [] => [[]]
  | c :: rest =>
    let r := splitOn sep rest
    if c = sep then [] :: r
    else
      match r with
      | [] => [[c]]
      | h :: t => (c :: h) :: t

/-! ## Credential Vault (src/dist/core/encryption.js)

`encrypt` runs AES-256-GCM with a random 16-byte IV and returns
`ivHex:authTagHex:cipherHex`.  `decrypt` splits on `:`, rebuilds the buffers
and lets GCM authenticate.  The node `crypto` AES-GCM primitive is external;
it is modelled symbolically but faithfully to its interface contract:
CTR-style keystream XOR for confidentiality (decryption inverts encryption
byte by byte) and a perfect MAC for the auth tag (a tag verifies if and only
if it was computed over the same key, IV and ciphertext).  Hex encoding and
the `:`-token format are translated from the source. -/

/-- Value of a hex digit character, mirroring node `Buffer` hex decoding
(which accepts both lowercase and uppercase digits). -/
def hexDigitToNat (c : Char) : Option Nat :=
  let v := c.toNat
  if 48 ≤ v ∧ v ≤ 57 then some (v - 48)
  else if 97 ≤ v ∧ v ≤ 102 then some (v - 87)
  else if 65 ≤ v ∧ v ≤ 70 then some (v - 55)
  else none

/-- Lowercase hex digit for a value below 16 (`Buffer.toString('hex')`). -/
def natToHexDigit (n : Nat) : Char :=
  Char.ofNat (if n < 10 then 48 + n else 87 + n)

/-- Hex encoding of a byte list, two lowercase digits per byte. -/
def toHex (bs : List Nat) : Str :=
  bs.flatMap (fun b => [natToHexDigit (b / 16 % 16), natToHexDigit (b % 16)])

/-- Node `Buffer.from(s, 'hex')`: decode hex pairs, stop silently at the
first invalid or incomplete pair. -/
def fromHex : Str → List Nat
  | c1 :: c2 :: rest =>
    match hexDigitToNat c1, hexDigitToNat c2 with
    | some h, some l => (16 * h + l) :: fromHex rest
    | _, _ => []
  | _ => []

/-- Base-255 digit expansion (all digits < 255), fuel-driven so that the
kernel can evaluate it. -/
def digits255F : Nat → Nat → List Nat
  | 0, _ => []
  | fuel + 1, n => if n = 0 then [] else n % 255 :: digits255F fuel (n / 255)

/-- Base-255 digits of a natural number. -/
def digits255 (n : Nat) : List Nat := digits255F n n

/-- Digit-list evaluation, inverse to `digits255`. -/
def undigits255 (l : List Nat) : Nat := l.foldr (fun d acc => d + 255 * acc) 0

/-- Separator-delimited encoding of a list of naturals into bytes
(each digit < 255, separator byte 255). -/
def encList (l : List Nat) : List Nat :=
  l.flatMap (fun n => digits255 n ++ [255])

/-- Idealized GCM authentication tag: a perfect MAC over key, IV and
ciphertext (injectively encoded, so a tag authenticates exactly one triple). -/
def encTag (key : Nat) (iv ct : List Nat) : List Nat :=
  encList (key :: iv.length :: (iv ++ ct))

/-- Recover the key component from an idealized auth tag. -/
def keyOfTag (tag : List Nat) : Nat :=
  undigits255 (tag.takeWhile (fun d => d ≠ 255))

/-- Idealized AES-256-CTR keystream byte for position `i` under `(key, iv)`. -/
def keyByte (key : Nat) (iv : List Nat) (i : Nat) : Nat :=
  (key + iv.foldl (· + ·) 0 + 131 * i) % 256

/-- Keystream of length `n` (model of the AES-CTR stream used by GCM). -/
def keystream (key : Nat) (iv : List Nat) (n : Nat) : List Nat :=
  (List.range n).map (keyByte key iv)

/-- CTR-mode body: XOR the data with the keystream. -/
def gcmBody (key : Nat) (iv data : List Nat) : List Nat :=
  List.zipWith (fun a b => a ^^^ b) data (keystream key iv data.length)

/-- Embedding of `encrypt` (src/dist/core/encryption.js lines 7-14): produce
`ivHex:authTagHex:cipherHex`.  The random 16-byte IV from
`crypto.randomBytes(IV_LENGTH)` is passed in explicitly; plaintext is its
UTF-8 byte sequence. -/
def encrypt (key : Nat) (iv pt : List Nat) : Str :=
  let ct := gcmBody key iv pt
  let authTag := encTag key iv ct
  toHex iv ++ ':' :: (toHex authTag ++ ':' :: toHex ct)

/-- Body of `decrypt` after the `hash.split(':')` destructuring
(src/dist/core/encryption.js lines 16-23).  JS array destructuring takes the
first three fields and ignores any extra ones; fewer than three fields make
`Buffer.from(undefined, 'hex')` throw a TypeError.  An empty IV is rejected
by `createDecipheriv`; a tag mismatch makes `decipher.final` throw. -/
def decryptParts (key : Nat) : List Str → Except Str (List Nat)
  | ivHex :: authTagHex :: encryptedText :: _ =>
    if fromHex ivHex = [] then .error ("Invalid initialization vector").data
    else if fromHex authTagHex = encTag key (fromHex ivHex) (fromHex encryptedText) then
      .ok (gcmBody key (fromHex ivHex) (fromHex encryptedText))
    else .error ("Unsupported state or unable to authenticate data").data
  | _ => .error ("TypeError").data

/-- Embedding of `decrypt` (src/dist/core/encryption.js lines 15-24). -/
def decrypt (key : Nat) (token : Str) : Except Str (List Nat) :=
  decryptParts key (splitOn ':' token)

/-! ## Connection Pool Manager (src/src/core/pool-manager.ts)

`ConnectionManager` keeps a `Map` from user id to a live pool adapter.  The
`pg` / `mysql2` driver pools are external resources; a `PoolHandle` records
the observable facts about the constructed pool: a fresh instance identity
(`id`, so distinct constructions are distinct handles), the detected
dialect, the explicitly configured bounds (`max`, `idleTimeoutMillis`,
`connectionTimeoutMillis` — only the Postgres branch sets any), and whether
a pool-level error observer was registered (`pgPool.on('error', ...)` —
only the Postgres branch registers one).  `decryptLog` records the
encrypted strings that were decrypted, so "no decryption happened" is
expressible. -/

/-- Supported database engines (`DatabaseType` in ai.types.ts). -/
inductive Dialect where
  | postgres
  | mysql
deriving DecidableEq

structure PoolHandle where
  id : Nat
  dialect : Dialect
  maxConnections : Option Nat
  idleTimeoutMillis : Option Nat
  connectionTimeoutMillis : Option Nat
  hasErrorObserver : Bool
deriving DecidableEq

structure ManagerState where
  pools : List (Str × PoolHandle)
  nextId : Nat
  decryptLog : List Str
deriving DecidableEq

/-- `Map.get` on the pool table (keys are unique by construction). -/
def poolsFind (pools : List (Str × PoolHandle)) (k : Str) : Option PoolHandle :=
  (pools.find? (fun p => decide (p.1 = k))).map (fun p => p.2)

/-- ASCII lowercasing of a byte (`String.prototype.toLowerCase` on the
decrypted connection string). -/
def lowerByte (b : Nat) : Nat := if 65 ≤ b ∧ b ≤ 90 then b + 32 else b

/-- Byte sequence of `"mysql"`. -/
def mysqlBytes : List Nat := [109, 121, 115, 113, 108]

/-- `connectionString.toLowerCase().startsWith('mysql')`. -/
def startsWithMysql (pt : List Nat) : Bool :=
  decide ((pt.map lowerByte).take 5 = mysqlBytes)

/-- Adapter built in the mysql2 branch (lines 22-59):
`mysql.createPool(connectionString)` with no explicit pool options and no
`'error'` observer. -/
def mysqlHandle (nid : Nat) : PoolHandle :=
  { id := nid, dialect := .mysql, maxConnections := none,
    idleTimeoutMillis := none, connectionTimeoutMillis := none,
    hasErrorObserver := false }

/-- Pool built in the pg branch (lines 61-77): `max: 10`,
`idleTimeoutMillis: 30000`, `connectionTimeoutMillis: 5000`, plus an
`'error'` observer calling `closePool(userId)`. -/
def pgHandle (nid : Nat) : PoolHandle :=
  { id := nid, dialect := .postgres, maxConnections := some 10,
    idleTimeoutMillis := some 30000, connectionTimeoutMillis := some 5000,
    hasErrorObserver := true }

/-- Embedding of `ConnectionManager.getPool` (pool-manager.ts lines 9-78).
On a cache hit the stored handle is returned unchanged (no decryption).  On
a miss the encrypted url is decrypted, the dialect is sniffed from the
plaintext scheme, and a dialect-specific pool is constructed and stored. -/
def getPool (key : Nat) (userId : Str) (encryptedUrl : Str) (σ : ManagerState) :
    Except Str (PoolHandle × ManagerState) :=
  match poolsFind σ.pools userId with
  | some handle => .ok (handle, σ)
  | none =>
    match decrypt key encryptedUrl with
    | .error e => .error e
    | .ok connectionString =>
      if connectionString = [] then
        .error ("Failed to decrypt connection string. Result is not a string.").data
      else
        let handle : PoolHandle :=
          if startsWithMysql connectionString then mysqlHandle σ.nextId
          else pgHandle σ.nextId
        .ok (handle, { pools := σ.pools ++ [(userId, handle)], nextId := σ.nextId + 1,
                       decryptLog := σ.decryptLog ++ [encryptedUrl] })

/-- Embedding of `ConnectionManager.closePool` (pool-manager.ts lines
80-91): attempt `pool.end()` (errors are swallowed), then remove the map
entry unconditionally. -/
def closePool (userId : Str) (σ : ManagerState) : ManagerState :=
  { σ with pools := σ.pools.filter (fun p => decide (p.1 ≠ userId)) }

/-- Firing of the pool-level error observer for a tenant: the pg branch
registered `this.closePool(userId)`; the mysql branch registered nothing,
so the state is unchanged. -/
def errorObserverFire (userId : Str) (σ : ManagerState) : ManagerState :=
  match poolsFind σ.pools userId with
  | some h => if h.hasErrorObserver then closePool userId σ else σ
  | none => σ

/-- Well-formedness of the pool table: every stored handle was created by
an earlier construction, so its id is below the fresh-id counter. -/
def ManagerWF (σ : ManagerState) : Prop := ∀ p ∈ σ.pools, p.2.id < σ.nextId

/-! ## Query Execution Gateway (src/dist/modules/query/query.service.js)

`executeQuery` obtains a pooled connection, runs the SQL and shapes the
driver result (lines 16-38).  The driver round-trip is external; the
result shaping is embedded over the normalized driver result
`{rows, fields, rowCount}`. -/

/-- A driver field descriptor; only its `name` is consumed. -/
structure DriverField where
  name : Str
deriving DecidableEq

/-- A result row: a JS object, i.e. an ordered list of key/value pairs with
unique keys. -/
abbrev Row := List (Str × Str)

structure DriverResult where
  rows : List Row
  fields : Option (List DriverField)
  rowCount : Option Int
deriving DecidableEq

/-- JS property access `r[k]` on an object row. -/
def lookupRow (k : Str) (r : Row) : Option Str :=
  (r.find? (fun p => decide (p.1 = k))).map (fun p => p.2)

/-- Other properties of a row, a given key removed. -/
def eraseKeyRow (k : Str) (r : Row) : Row :=
  r.filter (fun p => decide (p.1 ≠ k))

/-- JS object literal `{Status: 'Success', ...firstRow}`: the `Status`
property comes first (its value overridden by `firstRow` when present,
per spread semantics), followed by the remaining properties of `firstRow`.
`firstRow` is `result.rows[0]`, possibly `undefined`. -/
def statusRow (firstRow : Option Row) : Row :=
  match firstRow with
  | none => [(("Status").data, ("Success").data)]
  | some r =>
    (("Status").data, (lookupRow ("Status").data r).getD ("Success").data) ::
      eraseKeyRow ("Status").data r

inductive OutFormat where
  | json
  | table
deriving DecidableEq

inductive QueryResult where
  | json (rows : List Row) (rowCount : Int)
  | table (columns : List Str) (rows : List Row) (rowCount : Int)
deriving DecidableEq

/-- `result.fields && result.fields.length > 0`. -/
def hasFields (result : DriverResult) : Bool :=
  match result.fields with
  | none => false
  | some fs => decide (0 < fs.length)

/-- Embedding of the result shaping in `executeQuery`
(query.service.js lines 21-30). -/
def executeQueryFormat (format : OutFormat) (result : DriverResult) : QueryResult :=
  match format with
  | .json => .json result.rows (result.rowCount.getD 0)
  | .table =>
    if hasFields result then
      .table ((result.fields.getD []).map (fun f => f.name)) result.rows (result.rowCount.getD 0)
    else
      .table [("Status").data] [statusRow result.rows.head?] (result.rowCount.getD 0)

/-! ## Schema Introspection (src/src/modules/ai/schema-analyzer.ts)

Shapes from ai.types.ts; `parseSchema` translated statement by statement.
The JS `Map` keyed by table name with in-place mutation of its values
becomes an insertion-ordered list with unique names, updated in place via
`updateFirst`. -/

structure ColumnMetadata where
  columnName : Str
  dataType : Str
  isNullable : Bool
  isUnique : Bool
  isForeignKey : Bool
  foreignKeyReference : Option Str
deriving DecidableEq

structure IndexMetadata where
  indexName : Str
  columns : List Str
  isUnique : Bool
deriving DecidableEq

structure TableMetadata where
  tableName : Str
  columns : List ColumnMetadata
  primaryKey : Option (List Str)
  indexes : Option (List IndexMetadata)
deriving DecidableEq

inductive RelType where
  | oneToMany
  | oneToOne
  | manyToMany
deriving DecidableEq

structure RelationshipMetadata where
  fromTable : Str
  toTable : Str
  fromColumn : Str
  toColumn : Str
  type : RelType
deriving DecidableEq

structure SchemaContext where
  tables : List TableMetadata
  relationships : List RelationshipMetadata
  databaseType : Dialect
  cachedAt : Nat
deriving DecidableEq

/-- `is_nullable` arrives as a string or a boolean (`string | boolean`). -/
inductive RawNullable where
  | str (s : Str)
  | bool (b : Bool)
deriving DecidableEq

structure RawSchemaRow where
  table_name : Str
  column_name : Str
  data_type : Str
  is_nullable : RawNullable
deriving DecidableEq

structure RawConstraintRow where
  table_name : Str
  column_name : Str
  constraint_type : Str
  referenced_table_name : Option Str
  referenced_column_name : Option Str
deriving DecidableEq

structure RawSchemaPayload where
  schema : List RawSchemaRow
  constraints : List RawConstraintRow
deriving DecidableEq

/-- Column record built from a raw schema row (schema-analyzer.ts lines
92-98): `isNullable` is `row.is_nullable === 'YES' || row.is_nullable ===
true`. -/
def mkColumn (row : RawSchemaRow) : ColumnMetadata :=
  { columnName := row.column_name, dataType := row.data_type,
    isNullable := (match row.is_nullable with
      | .str s => decide (s = ("YES").data)
      | .bool b => b),
    isUnique := false, isForeignKey := false, foreignKeyReference := none }

/-- In-place update of the first element satisfying `p` (JS `Map.get` /
`Array.prototype.find` hand back the object that is then mutated). -/
def updateFirst (p : α → Bool) (f : α → α) : List α → List α
  | [] => []
  | a :: rest => if p a then f a :: rest else a :: updateFirst p f rest

/-- First loop body of `parseSchema` (lines 79-100): ensure a table entry
exists (initialized with empty `columns` and `indexes: []`), then push the
column. -/
def addSchemaRow (tables : List TableMetadata) (row : RawSchemaRow) : List TableMetadata :=
  let withTable :=
    if tables.any (fun t => decide (t.tableName = row.table_name)) then tables
    else tables ++ [{ tableName := row.table_name, columns := [],
                      primaryKey := none, indexes := some [] }]
  updateFirst (fun t => decide (t.tableName = row.table_name))
    (fun t => { t with columns := t.columns ++ [mkColumn row] }) withTable

/-- Second loop body of `parseSchema` (lines 102-139): skip constraints
whose table or column is absent, then dispatch on the constraint type.
Note the `FOREIGN KEY` branch appends a relationship whenever
`referenced_table_name` is non-null — the referenced table is never checked
against the table map. -/
def addConstraint (st : List TableMetadata × List RelationshipMetadata)
    (c : RawConstraintRow) : List TableMetadata × List RelationshipMetadata :=
  match st.1.find? (fun t => decide (t.tableName = c.table_name)) with
  | none => st
  | some table =>
    match table.columns.find? (fun col => decide (col.columnName = c.column_name)) with
    | none => st
    | some _ =>
      if c.constraint_type = ("PRIMARY KEY").data then
        (updateFirst (fun t => decide (t.tableName = c.table_name))
          (fun t => { t with primaryKey := some ((t.primaryKey.getD []) ++ [c.column_name]) })
          st.1,
         st.2)
      else if c.constraint_type = ("UNIQUE").data then
        (updateFirst (fun t => decide (t.tableName = c.table_name))
          (fun t => { t with
            columns := updateFirst (fun col => decide (col.columnName = c.column_name))
              (fun col => { col with isUnique := true }) t.columns,
            indexes := some ((t.indexes.getD []) ++
              [{ indexName := ("uniq_").data ++ c.table_name ++ ("_").data ++ c.column_name,
                 columns := [c.column_name], isUnique := true }]) })
          st.1,
         st.2)
      else if c.constraint_type = ("FOREIGN KEY").data then
        (updateFirst (fun t => decide (t.tableName = c.table_name))
          (fun t => { t with
            columns := updateFirst (fun col => decide (col.columnName = c.column_name))
              (fun col => { col with
                              isForeignKey := true,
                              foreignKeyReference := c.referenced_table_name }) t.columns })
          st.1,
         match c.referenced_table_name with
         | some rt =>
           st.2 ++ [{ fromTable := c.table_name, toTable := rt,
                      fromColumn := c.column_name,
                      toColumn := c.referenced_column_name.getD c.column_name,
                      type := .oneToMany }]
         | none => st.2)
      else st

/-- Embedding of `SchemaAnalyzer.parseSchema` (schema-analyzer.ts lines
75-147).  `now` stands for `new Date()`. -/
def parseSchema (payload : RawSchemaPayload) (databaseType : Dialect) (now : Nat) :
    SchemaContext :=
  let tables := payload.schema.foldl addSchemaRow []
  let st := payload.constraints.foldl addConstraint (tables, [])
  { tables := st.1, relationships := st.2, databaseType := databaseType, cachedAt := now }

/-! ## Schema cache invalidation (schema-analyzer.ts lines 52-70, 152-159)

The NodeCache stores `SchemaContext`s under string keys
`schema:${userId}:${databaseType}`; each stored entry originates from a
`getSchemaContext(tenant, url, dialect)` call, so an entry is modelled as
the `(tenant, dialect, value)` triple from which its key was built. -/

structure SchemaCacheEntry where
  tenant : Str
  dialect : Dialect
  value : SchemaContext
deriving DecidableEq

/-- String form of a `DatabaseType` value. -/
def dialectStr : Dialect → Str
  | .postgres => ("postgres").data
  | .mysql => ("mysql").data

/-- Cache key `schema:${userId}:${databaseType}` (line 57). -/
def cacheKeyOf (tenant : Str) (d : Dialect) : Str :=
  ("schema:").data ++ tenant ++ (":").data ++ dialectStr d

/-- Embedding of `SchemaAnalyzer.invalidateUserCache` (lines 152-159):
delete every key starting with `schema:${userId}:`. -/
def invalidateUserCache (userId : Str) (cache : List SchemaCacheEntry) :
    List SchemaCacheEntry :=
  cache.filter (fun e =>
    !(List.isPrefixOf (("schema:").data ++ userId ++ (":").data) (cacheKeyOf e.tenant e.dialect)))

/-! ## Query Validator (src/dist/modules/ai/ai.controller.js lines 297-423)

`QueryValidator.validateQuery` runs five passes accumulating into shared
`errors` / `warnings` / `suggestedIndexes` arrays.  The JS regexes are
embedded as explicit scanners with the exact same semantics on their
character classes: scanning tries a match at every position left to right,
greedy character-class repetition (backtracking never helps here because
every repeated class is disjoint from what follows, except in the JOIN
lookahead pattern where backtracking is modelled explicitly), `i`-flag
comparison via ASCII upper-casing, and `\b` via the JS word class
`[A-Za-z0-9_]`. -/

/-- Regex class `[a-zA-Z_]`. -/
def isAlphaUnder (c : Char) : Bool :=
  (97 ≤ c.toNat && c.toNat ≤ 122) || (65 ≤ c.toNat && c.toNat ≤ 90) || c = '_'

/-- ASCII digit. -/
def isDigitCh (c : Char) : Bool := 48 ≤ c.toNat && c.toNat ≤ 57

/-- JS word class `[A-Za-z0-9_]` (as used by `\b` and `[a-zA-Z0-9_]`). -/
def isWordChar (c : Char) : Bool := isAlphaUnder c || isDigitCh c

/-- Regex class `[a-zA-Z0-9_.]`. -/
def isWordDot (c : Char) : Bool := isWordChar c || c = '.'

/-- `String.prototype.toUpperCase` (ASCII). -/
def toUpperStr (s : Str) : Str := s.map Char.toUpper

/-- `String.prototype.toLowerCase` (ASCII). -/
def toLowerStr (s : Str) : Str := s.map Char.toLower

/-- `String.prototype.trim`. -/
def trim (s : Str) : Str :=
  ((s.dropWhile isSpace).reverse.dropWhile isSpace).reverse

/-- Case-insensitive literal match: drop `pat` from the front of `s`
(comparison by ASCII upper-casing, the `i` flag), returning the rest. -/
def dropCI : Str → Str → Option Str
  | [], s => some s
  | _ :: _, [] => none
  | p :: ps, c :: cs => if Char.toUpper c = Char.toUpper p then dropCI ps cs else none

/-- Regex `\s+` (greedy): require at least one whitespace char, consume the
whole run. -/
def dropSpaces1 (s : Str) : Option Str :=
  match s with
  | c :: rest => if isSpace c then some (rest.dropWhile isSpace) else none
  | [] => none

/-- Regex `[a-zA-Z_][a-zA-Z0-9_]*` (greedy): the identifier and the rest. -/
def takeIdent (s : Str) : Option (Str × Str) :=
  match s with
  | c :: rest =>
    if isAlphaUnder c then some (c :: rest.takeWhile isWordChar, rest.dropWhile isWordChar)
    else none
  | [] => none

/-- Regex `[a-zA-Z_][a-zA-Z0-9_.]*` (greedy). -/
def takeIdentDot (s : Str) : Option (Str × Str) :=
  match s with
  | c :: rest =>
    if isAlphaUnder c then some (c :: rest.takeWhile isWordDot, rest.dropWhile isWordDot)
    else none
  | [] => none

/-- Last character of `l`, falling back to `d`. -/
def lastD (l : Str) (d : Option Char) : Option Char :=
  match l.getLast? with
  | some c => some c
  | none => d

/-- Global regex scan (`String.prototype.match` with the `g` flag): try the
matcher at each position left to right; on a match record it and resume
after it.  `prev` carries the previous character for `\b` checks.  Matchers
always consume at least one character, so `s.length + 1` fuel suffices. -/
def scanAllF (m : Option Char → Str → Option (Str × Str)) :
    Nat → Option Char → Str → List Str
  | 0, _, _ => []
  | _ + 1, _, [] => []
  | fuel + 1, prev, c :: rest =>
    match m prev (c :: rest) with
    | some (mt, after) => mt :: scanAllF m fuel (lastD mt prev) after
    | none => scanAllF m fuel (some c) rest

def scanAll (m : Option Char → Str → Option (Str × Str)) (s : Str) : List Str :=
  scanAllF m (s.length + 1) none s

/-- `RegExp.prototype.test`: does the pattern match at some position? -/
def testScanF (m : Option Char → Str → Bool) : Option Char → Str → Bool
  | prev, [] => m prev []
  | prev, c :: rest => m prev (c :: rest) || testScanF m (some c) rest

def testScan (m : Option Char → Str → Bool) (s : Str) : Bool :=
  testScanF m none s

/-- `String.prototype.includes`. -/
def includesStr (needle s : Str) : Bool :=
  testScan (fun _ t => List.isPrefixOf needle t) s

/-- Word boundary `\b` on the left of a match position. -/
def wordBoundaryBefore (prev : Option Char) : Bool :=
  match prev with
  | none => true
  | some c => !(isWordChar c)

/-- Word boundary `\b` on the right of a match. -/
def endBoundary (s : Str) : Bool :=
  match s with
  | [] => true
  | c :: _ => !(isWordChar c)

/-! ### Pass 1: checkBasicSyntax (lines 315-338) -/

def validStarts : List Str :=
  [("SELECT").data, ("INSERT").data, ("UPDATE").data, ("DELETE").data,
   ("WITH").data, ("CREATE").data, ("ALTER").data]

/-- Embedding of `checkBasicSyntax`, returning its pushes
`(errors, warnings)` in push order. -/
def basicSyntax (query : Str) : List Str × List Str :=
  let trimmed := trim query
  if trimmed = [] then ([("Query cannot be empty").data], [])
  else
    let openParens := query.count '('
    let closeParens := query.count ')'
    let errors1 :=
      if openParens ≠ closeParens then
        [("Mismatched parentheses: ").data ++ (Nat.repr openParens).data ++
          (" open, ").data ++ (Nat.repr closeParens).data ++ (" close").data]
      else []
    let semicolonCount := query.count ';'
    let ew :=
      if 1 < semicolonCount then ([("Multiple statements are not allowed").data], ([] : List Str))
      else if trimmed.getLast? = some ';' then
        ([], [("Trailing semicolon detected; submit a single statement without separators").data])
      else ([], [])
    let upper := toUpperStr trimmed
    let errors3 :=
      if validStarts.any (fun kw => List.isPrefixOf kw upper) then []
      else [("Unsupported or invalid SQL statement type").data]
    (errors1 ++ ew.1 ++ errors3, ew.2)

/-! ### Pass 2: validateAgainstSchema (lines 339-355) -/

/-- Matcher for `(?:FROM|JOIN|INTO|UPDATE)\s+([a-zA-Z_][a-zA-Z0-9_]*)`
with alternatives tried in source order. -/
def matchKeywordIdent (kw : Str) (s : Str) : Option (Str × Str) :=
  match dropCI kw s with
  | none => none
  | some rest1 =>
    match dropSpaces1 rest1 with
    | none => none
    | some rest2 =>
      match takeIdent rest2 with
      | none => none
      | some (_, rest3) => some (s.take (s.length - rest3.length), rest3)

def tableRefMatcher (_prev : Option Char) (s : Str) : Option (Str × Str) :=
  (matchKeywordIdent ("FROM").data s).orElse (fun _ =>
    (matchKeywordIdent ("JOIN").data s).orElse (fun _ =>
      (matchKeywordIdent ("INTO").data s).orElse (fun _ =>
        matchKeywordIdent ("UPDATE").data s)))

def extractTableRefs (q : Str) : List Str := scanAll tableRefMatcher q

/-- Split on whitespace runs (JS `split(/\s+/)`), fuel-driven. -/
def splitRunsF (p : Char → Bool) : Nat → Str → List Str
  | 0, _ => []
  | _ + 1, [] => [[]]
  | fuel + 1, l =>
    let head := l.takeWhile (fun c => !(p c))
    let rest := l.dropWhile (fun c => !(p c))
    match rest with
    | [] => [head]
    | _ :: more => head :: splitRunsF p fuel (more.dropWhile p)

def splitWS (s : Str) : List Str := splitRunsF isSpace (s.length + 1) s

/-- Matcher for `[a-zA-Z_][a-zA-Z0-9_]*\.[a-zA-Z_][a-zA-Z0-9_]*`. -/
def qualRefMatcher (_prev : Option Char) (s : Str) : Option (Str × Str) :=
  match takeIdent s with
  | none => none
  | some (id1, rest1) =>
    match rest1 with
    | '.' :: rest2 =>
      match takeIdent rest2 with
      | none => none
      | some (id2, rest3) => some (id1 ++ '.' :: id2, rest3)
    | _ => none

def extractQualifiedRefs (q : Str) : List Str := scanAll qualRefMatcher q

/-- `QueryValidator.columnExists` (lines 411-416). -/
def columnExists (tableName columnName : Str) (ctx : SchemaContext) : Bool :=
  match ctx.tables.find? (fun t => decide (toLowerStr t.tableName = toLowerStr tableName)) with
  | none => false
  | some table =>
    table.columns.any (fun col => decide (toLowerStr col.columnName = toLowerStr columnName))

def tableNamesLower (ctx : SchemaContext) : List Str :=
  ctx.tables.map (fun t => toLowerStr t.tableName)

/-- Error pushes of `validateAgainstSchema`. -/
def schemaErrorsOf (q : Str) (ctx : SchemaContext) : List Str :=
  (extractTableRefs q).foldl (fun acc ref =>
    match ((splitWS ref)[1]?).map toLowerStr with
    | some table =>
      if table ≠ [] && !((tableNamesLower ctx).contains table) then
        acc ++ [("Table '").data ++ table ++ ("' does not exist in schema").data]
      else acc
    | none => acc) []

/-- Warning pushes of `validateAgainstSchema`. -/
def schemaWarningsOf (q : Str) (ctx : SchemaContext) : List Str :=
  (extractQualifiedRefs q).foldl (fun acc qualifiedRef =>
    match splitOn '.' qualifiedRef with
    | table :: column :: _ =>
      if columnExists table column ctx then acc
      else acc ++ [("Column reference '").data ++ qualifiedRef ++
        ("' could not be confirmed").data]
    | _ => acc) []

/-! ### Pass 3: checkSecurityIssues (lines 356-373) -/

/-- Pattern `('|")\s*;\s*DROP\s+TABLE`. -/
def secPat1 (s : Str) : Bool :=
  match s with
  | c :: rest =>
    if c = '\'' || c = '"' then
      match rest.dropWhile isSpace with
      | ';' :: r2 =>
        match dropCI ("DROP").data (r2.dropWhile isSpace) with
        | some r4 =>
          match dropSpaces1 r4 with
          | some r5 => (dropCI ("TABLE").data r5).isSome
          | none => false
        | none => false
      | _ => false
    else false
  | [] => false

/-- Pattern `\bUNION\s+SELECT\b`. -/
def secPat2 (prev : Option Char) (s : Str) : Bool :=
  wordBoundaryBefore prev &&
    (match dropCI ("UNION").data s with
     | some r1 =>
       match dropSpaces1 r1 with
       | some r2 =>
         match dropCI ("SELECT").data r2 with
         | some r3 => endBoundary r3
         | none => false
       | none => false
     | none => false)

/-- Pattern `\bOR\s+1\s*=\s*1\b`. -/
def secPat3 (prev : Option Char) (s : Str) : Bool :=
  wordBoundaryBefore prev &&
    (match dropCI ("OR").data s with
     | some r1 =>
       match dropSpaces1 r1 with
       | some r2 =>
         match r2 with
         | '1' :: r3 =>
           (match r3.dropWhile isSpace with
            | '=' :: r5 =>
              (match r5.dropWhile isSpace with
               | '1' :: r7 => endBoundary r7
               | _ => false)
            | _ => false)
         | _ => false
       | none => false
     | none => false)

/-- Pattern `\bxp_cmdshell\b`. -/
def secPat4 (prev : Option Char) (s : Str) : Bool :=
  wordBoundaryBefore prev &&
    (match dropCI ("XP_CMDSHELL").data s with
     | some r => endBoundary r
     | none => false)

/-- Pattern `\bEXEC\s*\(`. -/
def secPat5 (prev : Option Char) (s : Str) : Bool :=
  wordBoundaryBefore prev &&
    (match dropCI ("EXEC").data s with
     | some r1 =>
       (match r1.dropWhile isSpace with
        | '(' :: _ => true
        | _ => false)
     | none => false)

/-- First-match short-circuit over the five suspicious patterns. -/
def hasInjectionPattern (q : Str) : Bool :=
  testScan (fun _ s => secPat1 s) q || testScan secPat2 q || testScan secPat3 q ||
    testScan secPat4 q || testScan secPat5 q

/-- Warning pushes of `checkSecurityIssues`. -/
def securityWarnings (q : Str) : List Str :=
  (if hasInjectionPattern q then [("Potential SQL injection pattern detected").data] else []) ++
    (if includesStr ("--").data q || includesStr ("/*").data q then
      [("Query contains comments; review for hidden logic").data]
    else [])

/-! ### Pass 4: checkDangerousOperations (lines 374-388) -/

/-- Pattern `DELETE\s+FROM\s+[a-zA-Z_][a-zA-Z0-9_]*` (no `\b`). -/
def deletePat (s : Str) : Bool :=
  match dropCI ("DELETE").data s with
  | some r1 =>
    match dropSpaces1 r1 with
    | some r2 =>
      match dropCI ("FROM").data r2 with
      | some r3 =>
        match dropSpaces1 r3 with
        | some r4 => (takeIdent r4).isSome
        | none => false
      | none => false
    | none => false
  | none => false

/-- Pattern `UPDATE\s+[a-zA-Z_][a-zA-Z0-9_]*` (no `\b`). -/
def updatePat (s : Str) : Bool :=
  match dropCI ("UPDATE").data s with
  | some r1 =>
    match dropSpaces1 r1 with
    | some r2 => (takeIdent r2).isSome
    | none => false
  | none => false

/-- Pattern `\bWHERE\b`. -/
def wherePat (prev : Option Char) (s : Str) : Bool :=
  wordBoundaryBefore prev &&
    (match dropCI ("WHERE").data s with
     | some r => endBoundary r
     | none => false)

def hasWhere (q : Str) : Bool := testScan wherePat q

/-- Warning pushes of `checkDangerousOperations`. -/
def dangerousWarnings (q : Str) : List Str :=
  let upper := toUpperStr q
  (if testScan (fun _ s => deletePat s) q && !hasWhere q then
    [("DELETE without WHERE will affect all rows").data]
  else []) ++
    (if testScan (fun _ s => updatePat s) q && !hasWhere q then
      [("UPDATE without WHERE will affect all rows").data]
    else []) ++
    (if includesStr ("DROP ").data upper then
      [("DROP detected; this operation is destructive").data]
    else []) ++
    (if includesStr ("TRUNCATE ").data upper then
      [("TRUNCATE detected; this operation removes all table rows").data]
    else [])

/-! ### Pass 5: analyzePerformance (lines 389-410) -/

/-- Pattern `SELECT\s+\*`. -/
def selectStarPat (s : Str) : Bool :=
  match dropCI ("SELECT").data s with
  | some r1 =>
    match dropSpaces1 r1 with
    | some r2 =>
      (match r2 with
       | '*' :: _ => true
       | _ => false)
    | none => false
  | none => false

/-- Pattern `\bON\b` (the body of the negative lookahead
`(?![\s\S]*\bON\b)`). -/
def onPat (prev : Option Char) (s : Str) : Bool :=
  wordBoundaryBefore prev &&
    (match dropCI ("ON").data s with
     | some r => endBoundary r
     | none => false)

def hasWordON (q : Str) (prevStart : Option Char) : Bool := testScanF onPat prevStart q

/-- Backtracking over the greedy identifier of
`JOIN\s+[a-zA-Z_][a-zA-Z0-9_]*(?![\s\S]*\bON\b)`: the engine retries with
ever shorter identifiers, moving trailing identifier characters back into
the lookahead region, until the negative lookahead succeeds. -/
def tryJoin : Str → Str → Bool
  | [], _ => false
  | c :: moreRev, rest =>
    if !(hasWordON rest (some c)) then true
    else tryJoin moreRev (c :: rest)

def joinNoOnPat (s : Str) : Bool :=
  match dropCI ("JOIN").data s with
  | some r1 =>
    match dropSpaces1 r1 with
    | some r2 =>
      match takeIdent r2 with
      | some (ident, r3) => tryJoin ident.reverse r3
      | none => false
    | none => false
  | none => false

def joinMissingOn (q : Str) : Bool := testScan (fun _ s => joinNoOnPat s) q

/-- Pattern `\bCROSS\s+JOIN\b`. -/
def crossJoinPat (prev : Option Char) (s : Str) : Bool :=
  wordBoundaryBefore prev &&
    (match dropCI ("CROSS").data s with
     | some r1 =>
       match dropSpaces1 r1 with
       | some r2 =>
         match dropCI ("JOIN").data r2 with
         | some r3 => endBoundary r3
         | none => false
       | none => false
     | none => false)

/-- Matcher for `\bWHERE\s+([a-zA-Z_][a-zA-Z0-9_.]*)\s*=` (full match). -/
def whereEqMatcher (prev : Option Char) (s : Str) : Option (Str × Str) :=
  if wordBoundaryBefore prev then
    match dropCI ("WHERE").data s with
    | some r1 =>
      match dropSpaces1 r1 with
      | some r2 =>
        match takeIdentDot r2 with
        | some (_, r3) =>
          (match r3.dropWhile isSpace with
           | '=' :: r5 => some (s.take (s.length - r5.length), r5)
           | _ => none)
        | none => none
      | none => none
    | none => none
  else none

def whereEqMatches (q : Str) : List Str := scanAll whereEqMatcher q

/-- `match.replace(/\bWHERE\s+/i, '').replace(/\s*=$/, '').trim()`: the
match starts with `WHERE` (5 chars) plus whitespace and ends with optional
whitespace and `=`. -/
def stripWhereEq (m : Str) : Str :=
  let afterWhere := (m.drop 5).dropWhile isSpace
  let noEq :=
    match afterWhere.reverse with
    | '=' :: r => (r.dropWhile isSpace).reverse
    | _ => afterWhere
  trim noEq

/-- `QueryValidator.hasIndex` (lines 417-422). -/
def hasIndexOn (tableName columnName : Str) (ctx : SchemaContext) : Bool :=
  match ctx.tables.find? (fun t => decide (toLowerStr t.tableName = toLowerStr tableName)) with
  | none => false
  | some table =>
    match table.indexes with
    | none => false
    | some idxs =>
      if idxs.length = 0 then false
      else idxs.any (fun idx =>
        idx.columns.any (fun ic => decide (toLowerStr ic = toLowerStr columnName)))

/-- Embedding of `analyzePerformance`, returning its pushes
`(warnings, suggestedIndexes)`.  An unqualified column reference gives
`tableName = null`, so `if (!tableName || !columnName) continue` skips it. -/
def performanceResults (q : Str) (ctx : SchemaContext) : List Str × List Str :=
  let w1 :=
    if testScan (fun _ s => selectStarPat s) q then
      [("SELECT * detected; prefer explicit columns for better performance").data]
    else []
  let w2 :=
    if joinMissingOn q then
      [("JOIN may be missing an ON clause, risking cartesian products").data]
    else []
  let w3 :=
    if testScan crossJoinPat q then
      [("CROSS JOIN detected; verify cartesian product is intended").data]
    else []
  let idxs := (whereEqMatches q).foldl (fun acc m =>
    let columnRef := stripWhereEq m
    let parts : Option Str × Option Str :=
      if includesStr (".").data columnRef then
        match splitOn '.' columnRef with
        | t :: c :: _ => (some t, some c)
        | [t] => (some t, none)
        | [] => (none, none)
      else (none, some columnRef)
    match parts with
    | (some tableName, some columnName) =>
      if tableName = [] || columnName = [] then acc
      else if hasIndexOn tableName columnName ctx then acc
      else
        acc ++ [("CREATE INDEX idx_").data ++ tableName ++ ("_").data ++ columnName ++
          (" ON ").data ++ tableName ++ ("(").data ++ columnName ++ (");").data]
    | _ => acc) []
  (w1 ++ w2 ++ w3, idxs)

/-! ### validateQuery (lines 298-314) -/

structure ValidationResult where
  isValid : Bool
  errors : List Str
  warnings : List Str
  suggestedIndexes : Option (List Str)
  indexes : Option (List Str)
deriving DecidableEq

/-- Embedding of `QueryValidator.validateQuery`: the five passes run in
order, pushing into shared accumulators; `isValid` is `errors.length ===
0`; empty `suggestedIndexes` becomes `undefined`. -/
def validateQuery (query : Str) (_databaseType : Dialect) (ctx : SchemaContext) :
    ValidationResult :=
  let syntax1 := basicSyntax query
  let errors := syntax1.1 ++ schemaErrorsOf query ctx
  let warnings := syntax1.2 ++ schemaWarningsOf query ctx ++ securityWarnings query ++
    dangerousWarnings query ++ (performanceResults query ctx).1
  let suggestedIndexes := (performanceResults query ctx).2
  { isValid := decide (errors.length = 0), errors := errors, warnings := warnings,
    suggestedIndexes := if suggestedIndexes.length ≠ 0 then some suggestedIndexes else none,
    indexes := if suggestedIndexes.length ≠ 0 then some suggestedIndexes else none }

/-- A validator invocation as a state transformer over the schema context
it is given: the validator only ever reads `ctx`, so the call returns the
result together with the (unchanged) context. -/
def runValidate (query : Str) (databaseType : Dialect) (ctx : SchemaContext) :
    ValidationResult × SchemaContext :=
  (validateQuery query databaseType ctx, ctx)

/-! ## Workspace addConnection (src/unnamed/part_010 lines 7-45)

The `user_connections` metadata table is modelled as the list of its rows
in insertion order; `queryMetadata('SELECT COUNT(*) ...')` is the filtered
length, the guarded `INSERT` appends. -/

structure ConnRow where
  user_id : Str
  label : Str
  encrypted_url : Str
  is_active : Bool
deriving DecidableEq

abbrev MetaState := List ConnRow

/-- Embedding of `addConnection`: count the tenant's rows, refuse at 5,
encrypt the url, insert with `is_active = (count === 0)`. -/
def addConnection (key : Nat) (iv : List Nat) (userId label url : Str) (σ : MetaState) :
    Except Str (ConnRow × MetaState) :=
  let count := (σ.filter (fun r => decide (r.user_id = userId))).length
  if 5 ≤ count then .error ("Maximum limit of 5 databases reached.").data
  else
    let encryptedUrl := encrypt key iv (url.map Char.toNat)
    let row : ConnRow := { user_id := userId, label := label,
                           encrypted_url := encryptedUrl, is_active := decide (count = 0) }
    .ok (row, σ ++ [row])

/-- A sequence of `addConnection` requests `(userId, label, url)` applied in
order (failed adds leave the store unchanged). -/
def runAdds (key : Nat) (iv : List Nat) (reqs : List (Str × Str × Str)) (σ : MetaState) :
    MetaState :=
  reqs.foldl (fun s r =>
    match addConnection key iv r.1 r.2.1 r.2.2 s with
    | .ok p => p.2
    | .error _ => s) σ

/-- Rows stored for one tenant. -/
def rowsOf (u : Str) (σ : MetaState) : List ConnRow :=
  σ.filter (fun r => decide (r.user_id = u))

/-- Activation pattern of a tenant with `n` stored connections when only
`addConnection` ever ran: the first is active, the rest are not. -/
def activePattern : Nat → List Bool
  | 0 => []
  | n + 1 => true :: List.replicate n false

/-! ## Concrete fixtures for witnesses and counterexamples -/

/-- A demo 16-byte IV (as `crypto.randomBytes(16)` would supply). -/
def ivDemo : List Nat := List.replicate 16 7

/-- Column fixture. -/
def mkColFix (name ty : Str) : ColumnMetadata :=
  { columnName := name, dataType := ty, isNullable := false,
    isUnique := false, isForeignKey := false, foreignKeyReference := none }

/-- `users(id, email)` with a unique index on `id` and none on `email`.  -/
def usersTable : TableMetadata :=
  { tableName := ("users").data,
    columns := [mkColFix ("id").data ("uuid").data, mkColFix ("email").data ("text").data],
    primaryKey := some [("id").data],
    indexes := some [{ indexName := ("idx_users_id").data, columns := [("id").data],
                       isUnique := true }] }

/-- Schema context with table `users(id, email)` and no index on `email`. -/
def usersCtx : SchemaContext :=
  { tables := [usersTable], relationships := [], databaseType := .postgres, cachedAt := 0 }

/-- Spec example query with an unqualified equality column. -/
def c5sql : Str := ("SELECT * FROM users WHERE email = 'x'").data

/-- The same query with the equality column table-qualified. -/
def c5sqlQualified : Str := ("SELECT * FROM users WHERE users.email = 'x'").data

/-- Name skeleton of a table entry: its name and its column names.  The
constraint loop of `parseSchema` only flips flags and appends to
primary-key / index lists, so this skeleton is invariant under it. -/
def tableShape (t : TableMetadata) : Str × List Str :=
  (t.tableName, t.columns.map (fun c => c.columnName))

/-- The `fromTable`/`fromColumn` endpoint of a relationship resolves to a
present table and column. -/
def fromEndpointOK (tables : List TableMetadata) (r : RelationshipMetadata) : Prop :=
  ∃ t ∈ tables, t.tableName = r.fromTable ∧ ∃ col ∈ t.columns, col.columnName = r.fromColumn

/-- The relationship `parseSchema` builds from `ghostPayload`. -/
def ghostRel : RelationshipMetadata :=
  { fromTable := ("a").data, toTable := ("ghost").data, fromColumn := ("c").data,
    toColumn := ("c").data, type := .oneToMany }

/-- Introspection payload whose only constraint is a foreign key referencing
a table absent from the column rows. -/
def ghostPayload : RawSchemaPayload :=
  { schema := [{ table_name := ("a").data, column_name := ("c").data,
                 data_type := ("int").data, is_nullable := .str ("NO").data }],
    constraints := [{ table_name := ("a").data, column_name := ("c").data,
                      constraint_type := ("FOREIGN KEY").data,
                      referenced_table_name := some ("ghost").data,
                      referenced_column_name := none }] }

/-- Empty schema context fixture. -/
def ctxEmptyFix : SchemaContext :=
  { tables := [], relationships := [], databaseType := .postgres, cachedAt := 0 }

/-- Encrypted Postgres connection string fixture. -/
def demoUrlPg : Str := encrypt 5 ivDemo (("postgres://h").data.map Char.toNat)

/-- Encrypted MySQL connection string fixture. -/
def demoUrlMy : Str := encrypt 5 ivDemo (("mysql://h").data.map Char.toNat)

/-- The pool handle the Postgres branch constructs first (id 0). -/
def demoPgHandle : PoolHandle := pgHandle 0

/-- The pool handle the MySQL branch constructs first (id 0). -/
def demoMyHandle : PoolHandle := mysqlHandle 0

/-- Empty pool-manager state. -/
def demoState0 : ManagerState := { pools := [], nextId := 0, decryptLog := [] }

/-- Pool-manager state after a first Postgres `getPool` for tenant `u1`. -/
def demoState1 : ManagerState :=
  { pools := [(("u1").data, demoPgHandle)], nextId := 1, decryptLog := [demoUrlPg] }

/-- Pool-manager state after a first MySQL `getPool` for tenant `u1`. -/
def demoState1My : ManagerState :=
  { pools := [(("u1").data, demoMyHandle)], nextId := 1, decryptLog := [demoUrlMy] }

/-- The stored connection row the first `addConnection` for tenant `u`
produces. -/
def demoRow : ConnRow :=
  { user_id := ("u").data, label := ("l").data,
    encrypted_url := encrypt 5 ivDemo (("postgres://x").data.map Char.toNat),
    is_active := true }

instance {ε α : Type} [DecidableEq ε] [DecidableEq α] : DecidableEq (Except ε α) :=
  fun a b =>
    match a, b with
    | .ok x, .ok y =>
      if h : x = y then isTrue (by rw [h]) else isFalse (by intro hc; cases hc; exact h rfl)
    | .error x, .error y =>
      if h : x = y then isTrue (by rw [h]) else isFalse (by intro hc; cases hc; exact h rfl)
    | .ok _, .error _ => isFalse (by intro hc; cases hc)
    | .error _, .ok _ => isFalse (by intro hc; cases hc)

end SchemaViz

namespace SchemaViz

set_option maxRecDepth 100000

/-! ## Theorems: string splitting -/

theorem splitOn_ne_nil (sep : Char) (l : Str) : splitOn sep l ≠ [] := by
  cases l with
  | nil => simp [splitOn]
  | cons c rest =>
    simp only [splitOn]
    cases hc : decide (c = sep) with
    | false =>
      simp only [of_decide_eq_false hc, if_neg (of_decide_eq_false hc)]
      cases splitOn sep rest <;> simp
    | true =>
      simp [of_decide_eq_true hc]

theorem splitOn_append_sep (sep : Char) (a rest : Str) (ha : ∀ c ∈ a, c ≠ sep) :
    splitOn sep (a ++ sep :: rest) = a :: splitOn sep rest := by
  induction a with
  | nil => simp [splitOn]
  | cons c a ih =>
    have hc : c ≠ sep := ha c (List.mem_cons_self c a)
    have ih2 := ih (fun d hd => ha d (List.mem_cons_of_mem c hd))
    simp only [List.cons_append, splitOn, if_neg hc]
    rw [show List.append a (sep :: rest) = a ++ sep :: rest from rfl, ih2]

theorem splitOn_no_sep (sep : Char) (a : Str) (ha : ∀ c ∈ a, c ≠ sep) :
    splitOn sep a = [a] := by
  induction a with
  | nil => rfl
  | cons c a ih =>
    have hc : c ≠ sep := ha c (List.mem_cons_self c a)
    have ih2 := ih (fun d hd => ha d (List.mem_cons_of_mem c hd))
    simp [splitOn, ih2, if_neg hc]

/-! ## Theorems: hex encoding -/

theorem hexDigit_roundtrip : ∀ n < 16, hexDigitToNat (natToHexDigit n) = some n := by decide

theorem natToHexDigit_ne_colon : ∀ n < 16, natToHexDigit n ≠ ':' := by decide

theorem toHex_no_colon (bs : List Nat) : ∀ c ∈ toHex bs, c ≠ ':' := by
  intro c hc
  simp only [toHex, List.mem_flatMap, List.mem_cons, List.not_mem_nil, or_false] at hc
  obtain ⟨b, _, hmem⟩ := hc
  have h1 : b / 16 % 16 < 16 := Nat.mod_lt _ (by norm_num)
  have h2 : b % 16 < 16 := Nat.mod_lt _ (by norm_num)
  rcases hmem with h | h
  · exact h ▸ natToHexDigit_ne_colon _ h1
  · exact h ▸ natToHexDigit_ne_colon _ h2

theorem fromHex_toHex (bs : List Nat) (hb : ∀ b ∈ bs, b < 256) :
    fromHex (toHex bs) = bs := by
  induction bs with
  | nil => rfl
  | cons b bs ih =>
    have hblt : b < 256 := hb b (List.mem_cons_self b bs)
    have h1 : hexDigitToNat (natToHexDigit (b / 16 % 16)) = some (b / 16 % 16) :=
      hexDigit_roundtrip _ (Nat.mod_lt _ (by norm_num))
    have h2 : hexDigitToNat (natToHexDigit (b % 16)) = some (b % 16) :=
      hexDigit_roundtrip _ (Nat.mod_lt _ (by norm_num))
    have ih2 := ih (fun x hx => hb x (List.mem_cons_of_mem b hx))
    show fromHex (natToHexDigit (b / 16 % 16) :: natToHexDigit (b % 16) :: toHex bs) = b :: bs
    simp only [fromHex, h1, h2, ih2]
    have hval : 16 * (b / 16 % 16) + b % 16 = b := by
      rw [Nat.mod_eq_of_lt (show b / 16 < 16 by omega)]
      omega
    rw [hval]

/-! ## Theorems: idealized MAC -/

theorem undigits255_digits255F : ∀ fuel n, n ≤ fuel → undigits255 (digits255F fuel n) = n := by
  intro fuel
  induction fuel with
  | zero => intro n hn; interval_cases n; rfl
  | succ fuel ih =>
    intro n hn
    by_cases h0 : n = 0
    · simp [digits255F, h0, undigits255]
    · have hdiv : n / 255 ≤ fuel := by
        have := Nat.div_lt_self (Nat.pos_of_ne_zero h0) (by norm_num : 1 < 255)
        omega
      simp only [digits255F, if_neg h0, undigits255, List.foldr_cons]
      have := ih (n / 255) hdiv
      simp only [undigits255] at this
      rw [this]
      omega

theorem undigits255_digits255 (n : Nat) : undigits255 (digits255 n) = n :=
  undigits255_digits255F n n (Nat.le_refl n)

theorem digits255F_lt : ∀ fuel n, ∀ d ∈ digits255F fuel n, d < 255 := by
  intro fuel
  induction fuel with
  | zero => intro n d hd; cases hd
  | succ fuel ih =>
    intro n d hd
    by_cases h0 : n = 0
    · simp [digits255F, h0] at hd
    · simp only [digits255F, if_neg h0, List.mem_cons] at hd
      rcases hd with h | h
      · subst h; exact Nat.mod_lt _ (by norm_num)
      · exact ih _ d h

theorem digits255_lt (n : Nat) : ∀ d ∈ digits255 n, d < 255 :=
  digits255F_lt n n

theorem encList_lt (l : List Nat) : ∀ b ∈ encList l, b < 256 := by
  intro b hb
  simp only [encList, List.mem_flatMap, List.mem_append, List.mem_singleton] at hb
  obtain ⟨n, _, h | h⟩ := hb
  · exact Nat.lt_of_lt_of_le (digits255_lt n b h) (by norm_num)
  · omega

theorem takeWhile_append_stop {p : Nat → Bool} (l : List Nat) (x : Nat) (r : List Nat)
    (hl : ∀ a ∈ l, p a = true) (hx : p x = false) :
    (l ++ x :: r).takeWhile p = l := by
  induction l with
  | nil => simp [List.takeWhile, hx]
  | cons a l ih =>
    have ha : p a = true := hl a (List.mem_cons_self a l)
    simp only [List.cons_append, List.takeWhile_cons, ha, if_true]
    rw [ih (fun b hb => hl b (List.mem_cons_of_mem a hb))]

theorem keyOfTag_encTag (key : Nat) (iv ct : List Nat) :
    keyOfTag (encTag key iv ct) = key := by
  unfold keyOfTag encTag encList
  rw [List.flatMap_cons, List.append_assoc, List.singleton_append]
  rw [takeWhile_append_stop (digits255 key) 255 _
    (fun a ha => by simpa using Nat.ne_of_lt (digits255_lt key a ha)) (by simp)]
  exact undigits255_digits255 key

theorem encTag_key_inj {k1 k2 : Nat} {iv1 ct1 iv2 ct2 : List Nat}
    (h : encTag k1 iv1 ct1 = encTag k2 iv2 ct2) : k1 = k2 := by
  have := congrArg keyOfTag h
  rwa [keyOfTag_encTag, keyOfTag_encTag] at this

/-! ## Theorems: CTR body -/

theorem keystream_length (key : Nat) (iv : List Nat) (n : Nat) :
    (keystream key iv n).length = n := by simp [keystream]

theorem zipWith_xor_cancel (ks : List Nat) : ∀ pt : List Nat, ks.length = pt.length →
    List.zipWith (fun a b => a ^^^ b) (List.zipWith (fun a b => a ^^^ b) pt ks) ks = pt := by
  induction ks with
  | nil =>
    intro pt h
    cases pt with
    | nil => rfl
    | cons b t => simp at h
  | cons k ks ih =>
    intro pt h
    cases pt with
    | nil => simp at h
    | cons b pt =>
      simp only [List.zipWith_cons_cons, List.cons.injEq]
      refine ⟨Nat.xor_cancel_right k b, ih pt ?_⟩
      simpa using h

theorem gcmBody_length (key : Nat) (iv data : List Nat) :
    (gcmBody key iv data).length = data.length := by
  simp [gcmBody, keystream_length]

theorem gcmBody_involutive (key : Nat) (iv data : List Nat) :
    gcmBody key iv (gcmBody key iv data) = data := by
  show List.zipWith (fun a b => a ^^^ b) (gcmBody key iv data)
      (keystream key iv (gcmBody key iv data).length) = data
  rw [gcmBody_length]
  exact zipWith_xor_cancel _ data (keystream_length key iv data.length)

theorem keystream_lt (key : Nat) (iv : List Nat) (n : Nat) :
    ∀ b ∈ keystream key iv n, b < 256 := by
  intro b hb
  simp only [keystream, List.mem_map] at hb
  obtain ⟨j, _, hj⟩ := hb
  rw [← hj]
  exact Nat.mod_lt _ (by norm_num)

theorem xor_byte_lt {x y : Nat} (hx : x < 256) (hy : y < 256) : x ^^^ y < 256 := by
  have h256 : (256 : Nat) = 2 ^ 8 := by norm_num
  rw [h256] at hx hy ⊢
  exact Nat.bitwise_lt hx hy

theorem zipWith_xor_lt : ∀ xs ys : List Nat, (∀ b ∈ xs, b < 256) → (∀ b ∈ ys, b < 256) →
    ∀ b ∈ List.zipWith (fun a b => a ^^^ b) xs ys, b < 256 := by
  intro xs
  induction xs with
  | nil => intro ys _ _ b hb; simp at hb
  | cons x xs ih =>
    intro ys hx hy b hb
    cases ys with
    | nil => simp at hb
    | cons y ys =>
      simp only [List.zipWith_cons_cons, List.mem_cons] at hb
      rcases hb with h | h
      · subst h
        exact xor_byte_lt (hx x (List.mem_cons_self x xs)) (hy y (List.mem_cons_self y ys))
      · exact ih ys (fun a ha => hx a (List.mem_cons_of_mem x ha))
          (fun a ha => hy a (List.mem_cons_of_mem y ha)) b h

theorem gcmBody_lt (key : Nat) (iv data : List Nat) (hd : ∀ b ∈ data, b < 256) :
    ∀ b ∈ gcmBody key iv data, b < 256 :=
  zipWith_xor_lt data _ hd (keystream_lt key iv data.length)

/-! ## Theorems: decrypt / encrypt interplay -/

theorem splitOn_encrypt (key : Nat) (iv pt : List Nat) :
    splitOn ':' (encrypt key iv pt) =
      toHex iv :: toHex (encTag key iv (gcmBody key iv pt)) :: [toHex (gcmBody key iv pt)] := by
  unfold encrypt
  rw [splitOn_append_sep _ _ _ (toHex_no_colon iv),
      splitOn_append_sep _ _ _ (toHex_no_colon _),
      splitOn_no_sep _ _ (toHex_no_colon _)]

theorem encTag_lt (key : Nat) (iv ct : List Nat) : ∀ b ∈ encTag key iv ct, b < 256 :=
  encList_lt _

theorem decrypt_encrypt_same_key (key : Nat) (iv pt : List Nat) (hiv : iv ≠ [])
    (hivb : ∀ b ∈ iv, b < 256) (hptb : ∀ b ∈ pt, b < 256) :
    decrypt key (encrypt key iv pt) = .ok pt := by
  unfold decrypt
  rw [splitOn_encrypt]
  show decryptParts key _ = _
  simp only [decryptParts]
  rw [fromHex_toHex iv hivb,
      fromHex_toHex (encTag key iv (gcmBody key iv pt)) (encTag_lt key iv _),
      fromHex_toHex _ (gcmBody_lt key iv pt hptb)]
  rw [if_neg hiv, if_pos rfl, gcmBody_involutive]

theorem decrypt_wrong_key (k1 k2 : Nat) (iv pt : List Nat) (hk : k2 ≠ k1) (hiv : iv ≠ [])
    (hivb : ∀ b ∈ iv, b < 256) (hptb : ∀ b ∈ pt, b < 256) :
    decrypt k2 (encrypt k1 iv pt) =
      .error ("Unsupported state or unable to authenticate data").data := by
  unfold decrypt
  rw [splitOn_encrypt]
  show decryptParts k2 _ = _
  simp only [decryptParts]
  rw [fromHex_toHex iv hivb,
      fromHex_toHex (encTag k1 iv (gcmBody k1 iv pt)) (encTag_lt k1 iv _),
      fromHex_toHex _ (gcmBody_lt k1 iv pt hptb)]
  rw [if_neg hiv, if_neg (fun h => hk (encTag_key_inj h.symm))]

theorem decrypt_short_token (key : Nat) (token : Str)
    (h : (splitOn ':' token).length < 3) :
    decrypt key token = .error ("TypeError").data := by
  unfold decrypt
  match hsp : splitOn ':' token with
  | [] => rfl
  | [a] => rfl
  | [a, b] => rfl
  | a :: b :: c :: rest => rw [hsp] at h; simp only [List.length_cons] at h; omega

theorem decryptParts_ok_inv (key : Nat) (parts : List Str) (pt : List Nat)
    (h : decryptParts key parts = .ok pt) :
    ∃ ivHex authTagHex ctHex rest, parts = ivHex :: authTagHex :: ctHex :: rest ∧
      fromHex ivHex ≠ [] ∧
      fromHex authTagHex = encTag key (fromHex ivHex) (fromHex ctHex) ∧
      fromHex ctHex = gcmBody key (fromHex ivHex) pt ∧
      pt = gcmBody key (fromHex ivHex) (fromHex ctHex) := by
  match parts with
  | [] => simp [decryptParts] at h
  | [a] => simp [decryptParts] at h
  | [a, b] => simp [decryptParts] at h
  | a :: b :: c :: rest =>
    simp only [decryptParts] at h
    by_cases h1 : fromHex a = []
    · rw [if_pos h1] at h; cases h
    · rw [if_neg h1] at h
      by_cases h2 : fromHex b = encTag key (fromHex a) (fromHex c)
      · rw [if_pos h2] at h
        have hpt : pt = gcmBody key (fromHex a) (fromHex c) := (Except.ok.inj h).symm
        refine ⟨a, b, c, rest, rfl, h1, h2, ?_, hpt⟩
        rw [hpt, gcmBody_involutive]
      · rw [if_neg h2] at h; cases h

/-! ## Claim C2 -/

/-- C2: for every plaintext (as its byte sequence) and every 16-byte IV,
decrypting the token produced by encrypting under the process-wide key
returns exactly the plaintext: `decrypt(encrypt(s)) == s`. -/
theorem C2_decrypt_encrypt_roundtrip (key : Nat) (iv pt : List Nat)
    (hiv : iv.length = 16) (hivb : ∀ b ∈ iv, b < 256) (hptb : ∀ b ∈ pt, b < 256) :
    decrypt key (encrypt key iv pt) = .ok pt :=
  decrypt_encrypt_same_key key iv pt
    (fun h => by rw [h] at hiv; cases hiv) hivb hptb

/-- Witness for C2 at a concrete key, IV and plaintext. -/
theorem C2_witness :
    decrypt 5 (encrypt 5 ivDemo [104, 105]) = .ok [104, 105] :=
  C2_decrypt_encrypt_roundtrip 5 ivDemo [104, 105] (by decide) (by decide) (by decide)

/-! ## Claim C6 -/

/-- C6 counterexample: the claim says every malformed token (not three
`:`-separated fields) makes `decrypt` fail, but a valid token with an extra
`:00` field appended — four fields, hence malformed — decrypts
successfully, because the JS destructuring of `hash.split(':')` silently
ignores extra fields. -/
theorem C6_counterexample :
    (splitOn ':' (encrypt 5 ivDemo [104, 105] ++ ':' :: [ '0', '0'])).length = 4 ∧
    decrypt 5 (encrypt 5 ivDemo [104, 105] ++ ':' :: [ '0', '0']) = .ok [104, 105] := by
  constructor
  · decide
  · decide

/-- C6 (amended): `decrypt` fails for truncated tokens (fewer than three
`:`-separated fields); it returns a plaintext only when the first three
fields decode to a GCM-authentic `(iv, tag, ciphertext)` triple under the
configured key — so it never returns corrupted plaintext; and every token
produced under a different key fails authentication.  (Tokens with extra
trailing `:`-fields around an authentic triple are accepted, which is the
correction to the original claim.) -/
theorem C6_amended_decrypt_rejects (key : Nat) (token : Str) :
    ((splitOn ':' token).length < 3 → decrypt key token = .error ("TypeError").data)
    ∧ (∀ pt, decrypt key token = .ok pt →
        ∃ ivHex authTagHex ctHex rest,
          splitOn ':' token = ivHex :: authTagHex :: ctHex :: rest ∧
          fromHex ivHex ≠ [] ∧
          fromHex authTagHex = encTag key (fromHex ivHex) (fromHex ctHex) ∧
          fromHex ctHex = gcmBody key (fromHex ivHex) pt)
    ∧ (∀ k2 iv pt, k2 ≠ key → iv ≠ [] → (∀ b ∈ iv, b < 256) → (∀ b ∈ pt, b < 256) →
        token = encrypt k2 iv pt →
        decrypt key token =
          .error ("Unsupported state or unable to authenticate data").data) := by
  refine ⟨fun h => decrypt_short_token key token h, ?_, ?_⟩
  · intro pt h
    obtain ⟨a, b, c, rest, hparts, h1, h2, h3, _⟩ :=
      decryptParts_ok_inv key (splitOn ':' token) pt h
    exact ⟨a, b, c, rest, hparts, h1, h2, h3⟩
  · intro k2 iv pt hk hiv hivb hptb htok
    subst htok
    exact decrypt_wrong_key k2 key iv pt (Ne.symm hk) hiv hivb hptb

/-- Witness for the amended C6: a token produced under key 5 is rejected by
key 7 with the authentication failure. -/
theorem C6_witness :
    decrypt 7 (encrypt 5 ivDemo [104]) =
      .error ("Unsupported state or unable to authenticate data").data :=
  (C6_amended_decrypt_rejects 7 (encrypt 5 ivDemo [104])).2.2 5 ivDemo [104]
    (by decide) (by decide) (by decide) (by decide) rfl

/-! ## Pool manager lemmas -/

theorem getPool_hit (key : Nat) (u url : Str) (σ : ManagerState) (h : PoolHandle)
    (hf : poolsFind σ.pools u = some h) : getPool key u url σ = .ok (h, σ) := by
  unfold getPool
  rw [hf]

theorem poolsFind_append_last (l : List (Str × PoolHandle)) (u : Str) (h : PoolHandle)
    (hnone : poolsFind l u = none) : poolsFind (l ++ [(u, h)]) u = some h := by
  unfold poolsFind at *
  rw [List.find?_append]
  have hfn : l.find? (fun p => decide (p.1 = u)) = none := by
    cases hf : l.find? (fun p => decide (p.1 = u)) with
    | none => rfl
    | some p => rw [hf] at hnone; cases hnone
  rw [hfn]
  simp [List.find?]

theorem poolsFind_closePool_self (u : Str) (σ : ManagerState) :
    poolsFind (closePool u σ).pools u = none := by
  unfold poolsFind closePool
  have hfn : ((σ.pools.filter fun p => decide (p.1 ≠ u)).find? fun p => decide (p.1 = u))
      = none := by
    apply List.find?_eq_none.2
    intro p hp
    have h2 := List.of_mem_filter hp
    simp only [decide_eq_true_eq] at h2 ⊢
    exact h2
  rw [hfn]
  rfl

theorem getPool_ok_inv (key : Nat) (u url : Str) (σ : ManagerState) (h : PoolHandle)
    (σ2 : ManagerState) (hc : getPool key u url σ = .ok (h, σ2)) :
    (poolsFind σ.pools u = some h ∧ σ2 = σ) ∨
    (poolsFind σ.pools u = none ∧ h.id = σ.nextId ∧
      σ2.pools = σ.pools ++ [(u, h)] ∧ σ2.nextId = σ.nextId + 1 ∧
      σ2.decryptLog = σ.decryptLog ++ [url]) := by
  unfold getPool at hc
  cases hf : poolsFind σ.pools u with
  | some h0 =>
    rw [hf] at hc
    dsimp only at hc
    have h2 := Except.ok.inj hc
    cases h2
    exact Or.inl ⟨rfl, rfl⟩
  | none =>
    rw [hf] at hc
    cases hd : decrypt key url with
    | error e => rw [hd] at hc; dsimp only at hc; cases hc
    | ok cs =>
      rw [hd] at hc
      dsimp only at hc
      by_cases hcs : cs = []
      · rw [if_pos hcs] at hc; cases hc
      · rw [if_neg hcs] at hc
        try dsimp only at hc
        have h2 := Except.ok.inj hc
        cases h2
        refine Or.inr ⟨rfl, ?_, rfl, rfl, rfl⟩
        cases startsWithMysql cs <;> rfl

theorem poolsFind_mem (l : List (Str × PoolHandle)) (u : Str) (h : PoolHandle)
    (hf : poolsFind l u = some h) : ∃ p ∈ l, p.2 = h := by
  unfold poolsFind at hf
  cases hfind : l.find? (fun p => decide (p.1 = u)) with
  | none => rw [hfind] at hf; cases hf
  | some p =>
    rw [hfind] at hf
    exact ⟨p, List.mem_of_find?_eq_some hfind, Option.some.inj hf⟩

theorem getPool_WF (key : Nat) (u url : Str) (σ : ManagerState) (h : PoolHandle)
    (σ2 : ManagerState) (hWF : ManagerWF σ) (hc : getPool key u url σ = .ok (h, σ2)) :
    ManagerWF σ2 ∧ h.id < σ2.nextId ∧ σ.nextId ≤ σ2.nextId := by
  rcases getPool_ok_inv key u url σ h σ2 hc with ⟨hf, rfl⟩ | ⟨hf, hid, hpools, hnext, _⟩
  · obtain ⟨p, hpm, hp2⟩ := poolsFind_mem _ u h hf
    exact ⟨hWF, hp2 ▸ hWF p hpm, Nat.le_refl _⟩
  · refine ⟨?_, ?_, ?_⟩
    · intro p hp
      rw [hpools] at hp
      rw [hnext]
      rcases List.mem_append.1 hp with hold | hnew
      · exact Nat.lt_succ_of_lt (hWF p hold)
      · have hpe : p = (u, h) := by simpa using hnew
        rw [hpe, hid]
        exact Nat.lt_succ_self _
    · rw [hnext, hid]; exact Nat.lt_succ_self _
    · rw [hnext]; exact Nat.le_succ _

theorem errorObserverFire_of_find (u : Str) (σ : ManagerState) (h : PoolHandle)
    (hf : poolsFind σ.pools u = some h) :
    errorObserverFire u σ = if h.hasErrorObserver then closePool u σ else σ := by
  unfold errorObserverFire
  rw [hf]

theorem getPool_miss_handle (key : Nat) (u url : Str) (σ : ManagerState) (h : PoolHandle)
    (σ2 : ManagerState) (hmiss : poolsFind σ.pools u = none)
    (hc : getPool key u url σ = .ok (h, σ2)) :
    ∃ cs, decrypt key url = .ok cs ∧ cs ≠ [] ∧
      h = (if startsWithMysql cs then mysqlHandle σ.nextId else pgHandle σ.nextId) ∧
      σ2 = { pools := σ.pools ++ [(u, h)], nextId := σ.nextId + 1,
             decryptLog := σ.decryptLog ++ [url] } := by
  unfold getPool at hc
  rw [hmiss] at hc
  cases hd : decrypt key url with
  | error e => rw [hd] at hc; dsimp only at hc; cases hc
  | ok cs =>
    rw [hd] at hc
    dsimp only at hc
    by_cases hcs : cs = []
    · rw [if_pos hcs] at hc; cases hc
    · rw [if_neg hcs] at hc
      try dsimp only at hc
      have h2 := Except.ok.inj hc
      cases h2
      exact ⟨cs, rfl, hcs, rfl, rfl⟩

/-! ## Claim C1 -/

/-- C1: once `getPool(tenant, url1)` has returned a handle and `closePool`
has not been invoked, every later `getPool(tenant, url2)` returns the
identical handle instance with the manager state (including its decryption
log) completely unchanged — so `url2` is never decrypted, even when it
differs from `url1`; and after `closePool(tenant)`, any next successful
`getPool` constructs a fresh handle, distinct from the old one. -/
theorem C1_getPool_identity_until_close (key : Nat) (t url1 url2 : Str)
    (σ : ManagerState) (h : PoolHandle) (σ1 : ManagerState)
    (hWF : ManagerWF σ) (hcall : getPool key t url1 σ = .ok (h, σ1)) :
    getPool key t url2 σ1 = .ok (h, σ1) ∧
    (∀ url3 h2 σ3, getPool key t url3 (closePool t σ1) = .ok (h2, σ3) →
      h2 ≠ h ∧ h2.id = σ1.nextId) := by
  have hfind1 : poolsFind σ1.pools t = some h := by
    rcases getPool_ok_inv key t url1 σ h σ1 hcall with ⟨hf, rfl⟩ | ⟨hf, _, hpools, _, _⟩
    · exact hf
    · rw [hpools]; exact poolsFind_append_last _ _ _ hf
  obtain ⟨hWF1, hlt, _⟩ := getPool_WF key t url1 σ h σ1 hWF hcall
  refine ⟨getPool_hit key t url2 σ1 h hfind1, ?_⟩
  intro url3 h2 σ3 hc2
  have hfnone : poolsFind (closePool t σ1).pools t = none := poolsFind_closePool_self t σ1
  rcases getPool_ok_inv key t url3 (closePool t σ1) h2 σ3 hc2 with ⟨hf, _⟩ | ⟨_, hid2, _, _, _⟩
  · rw [hfnone] at hf; cases hf
  · have hid2n : h2.id = σ1.nextId := hid2
    refine ⟨?_, hid2n⟩
    intro hcontra
    rw [hcontra] at hid2n
    omega

/-- Witness for C1: after the first `getPool` for tenant `u1` the manager
returns the cached handle unchanged even for a second argument that is not
even a decryptable token. -/
theorem C1_witness :
    getPool 5 ("u1").data ("not-a-token").data demoState1 = .ok (demoPgHandle, demoState1) :=
  (C1_getPool_identity_until_close 5 ("u1").data demoUrlPg ("not-a-token").data demoState0
    demoPgHandle demoState1 (fun p hp => nomatch hp) (by decide)).1

/-! ## Claim C4 -/

/-- C4 counterexample: on first use with a MySQL connection string, the
constructed pool has no explicitly configured connection bound, no acquire
timeout, no idle-eviction timeout, and no background error observer — the
claim asserts all four for both dialects. -/
theorem C4_counterexample :
    ∃ h σ2, getPool 5 ("u1").data demoUrlMy demoState0 = .ok (h, σ2) ∧
      h.dialect = .mysql ∧ h.maxConnections = none ∧ h.connectionTimeoutMillis = none ∧
      h.idleTimeoutMillis = none ∧ h.hasErrorObserver = false :=
  ⟨demoMyHandle, demoState1My, by decide, rfl, rfl, rfl, rfl, rfl⟩

/-- C4 (amended): on first use, only the Postgres branch constructs a pool
bounded by `max: 10` with a 5-second `connectionTimeoutMillis` and a
30-second `idleTimeoutMillis`, and registers an error observer whose firing
removes the tenant's pool (forcing recreation on next use); the MySQL
branch constructs the pool with driver defaults (no explicit bounds) and
registers no observer, so firing a pool error leaves the state unchanged. -/
theorem C4_amended_pool_config (key : Nat) (t url : Str) (σ : ManagerState)
    (h : PoolHandle) (σ2 : ManagerState)
    (hmiss : poolsFind σ.pools t = none)
    (hcall : getPool key t url σ = .ok (h, σ2)) :
    (h.dialect = .postgres →
      h.maxConnections = some 10 ∧ h.connectionTimeoutMillis = some 5000 ∧
      h.idleTimeoutMillis = some 30000 ∧ h.hasErrorObserver = true ∧
      poolsFind (errorObserverFire t σ2).pools t = none)
    ∧ (h.dialect = .mysql →
      h.maxConnections = none ∧ h.connectionTimeoutMillis = none ∧
      h.idleTimeoutMillis = none ∧ h.hasErrorObserver = false ∧
      errorObserverFire t σ2 = σ2) := by
  obtain ⟨cs, hd, hcs, hh, hσ2⟩ := getPool_miss_handle key t url σ h σ2 hmiss hcall
  have hfind2 : poolsFind σ2.pools t = some h := by
    rw [hσ2]
    exact poolsFind_append_last σ.pools t h hmiss
  have hfire := errorObserverFire_of_find t σ2 h hfind2
  cases hb : startsWithMysql cs with
  | true =>
    rw [hb] at hh
    rw [if_pos rfl] at hh
    subst hh
    constructor
    · intro hdial; exact absurd hdial (by simp [mysqlHandle])
    · intro _
      refine ⟨rfl, rfl, rfl, rfl, ?_⟩
      rw [hfire]
      rw [if_neg (by simp [mysqlHandle])]
  | false =>
    rw [hb] at hh
    rw [if_neg (by simp)] at hh
    subst hh
    constructor
    · intro _
      refine ⟨rfl, rfl, rfl, rfl, ?_⟩
      rw [hfire]
      rw [if_pos (show (pgHandle σ.nextId).hasErrorObserver = true from rfl)]
      exact poolsFind_closePool_self t σ2
    · intro hdial; exact absurd hdial (by simp [pgHandle])

/-- Witness for the amended C4 at the concrete first Postgres `getPool`. -/
theorem C4_witness :
    demoPgHandle.maxConnections = some 10 ∧
    demoPgHandle.connectionTimeoutMillis = some 5000 ∧
    demoPgHandle.idleTimeoutMillis = some 30000 ∧
    demoPgHandle.hasErrorObserver = true ∧
    poolsFind (errorObserverFire ("u1").data demoState1).pools ("u1").data = none :=
  (C4_amended_pool_config 5 ("u1").data demoUrlPg demoState0 demoPgHandle demoState1
    (by decide) (by decide)).1 rfl

/-! ## Claim C7 -/

/-- C7: in table format, a driver result with no column metadata yields
`columns = ["Status"]` and exactly one synthesized row whose `Status` field
is `"Success"` (the driver never reports a column literally named `Status`
on metadata-free results, which the second hypothesis captures); when the
driver reports fields, the columns are the field names and the rows are
returned as-is. -/
theorem C7_execute_table_fallback (result : DriverResult) :
    (hasFields result = false →
      (result.rows = [] ∨ lookupRow ("Status").data (result.rows.headD []) = none) →
      ∃ rows2,
        executeQueryFormat .table result =
          .table [("Status").data] rows2 (result.rowCount.getD 0) ∧
        rows2.length = 1 ∧
        lookupRow ("Status").data (rows2.headD []) = some ("Success").data)
    ∧ (hasFields result = true →
      executeQueryFormat .table result =
        .table ((result.fields.getD []).map (fun f => f.name)) result.rows
          (result.rowCount.getD 0)) := by
  constructor
  · intro hnof hrow
    refine ⟨[statusRow result.rows.head?], ?_, rfl, ?_⟩
    · unfold executeQueryFormat
      rw [hnof]
      simp
    · cases hr : result.rows with
      | nil => simp [statusRow, lookupRow, List.find?]
      | cons r rest =>
        rw [hr] at hrow
        rcases hrow with h | h
        · cases h
        · rw [List.headD_cons] at h
          simp only [List.head?_cons, statusRow, List.headD_cons, h]
          simp [lookupRow, List.find?]
  · intro hf
    unfold executeQueryFormat
    rw [hf]
    simp

/-- Witness for C7 at a concrete INSERT-like driver result (no fields). -/
theorem C7_witness :
    ∃ rows2,
      executeQueryFormat .table
          { rows := [], fields := some [], rowCount := some 3 } =
        .table [("Status").data] rows2
          (({ rows := [], fields := some [], rowCount := some 3 } : DriverResult).rowCount.getD 0) ∧
      rows2.length = 1 ∧
      lookupRow ("Status").data (rows2.headD []) = some ("Success").data :=
  (C7_execute_table_fallback { rows := [], fields := some [], rowCount := some 3 }).1
    (by decide) (Or.inl rfl)

/-! ## Prefix lemmas for the schema cache -/

theorem append_colon_inj (t : Str) : ∀ (tn d : Str), ':' ∉ t → ':' ∉ tn →
    ((t ++ [':']) <+: (tn ++ ':' :: d) → t = tn) := by
  induction t with
  | nil =>
    intro tn d _ htn hpre
    cases tn with
    | nil => rfl
    | cons c tn2 =>
      obtain ⟨r, hr⟩ := hpre
      simp only [List.nil_append, List.cons_append, List.singleton_append] at hr
      have hc : ':' = c := (List.cons.inj hr).1
      exact absurd (hc ▸ List.mem_cons_self c tn2) htn
  | cons a t2 ih =>
    intro tn d ht htn hpre
    cases tn with
    | nil =>
      obtain ⟨r, hr⟩ := hpre
      simp only [List.cons_append, List.nil_append] at hr
      have ha : a = ':' := (List.cons.inj hr).1
      exact absurd (ha ▸ List.mem_cons_self a t2) ht
    | cons c tn2 =>
      rw [List.cons_append, List.cons_append, List.cons_prefix_cons] at hpre
      have ht2 : ':' ∉ t2 := fun hm => ht (List.mem_cons_of_mem a hm)
      have htn2 : ':' ∉ tn2 := fun hm => htn (List.mem_cons_of_mem c hm)
      rw [hpre.1, ih tn2 d ht2 htn2 hpre.2]

theorem cacheKey_prefix_iff (t tn : Str) (dl : Dialect) (ht : ':' ∉ t) (htn : ':' ∉ tn) :
    (("schema:").data ++ t ++ (":").data) <+: cacheKeyOf tn dl ↔ tn = t := by
  unfold cacheKeyOf
  have h1 : ("schema:").data ++ t ++ (":").data = ("schema:").data ++ (t ++ [':']) := by
    rw [List.append_assoc]
  have h2 : ("schema:").data ++ tn ++ (":").data ++ dialectStr dl
      = ("schema:").data ++ (tn ++ ':' :: dialectStr dl) := by
    rw [List.append_assoc, List.append_assoc]
    rfl
  rw [h1, h2, List.prefix_append_right_inj]
  constructor
  · intro h
    exact (append_colon_inj t tn (dialectStr dl) ht htn h).symm
  · rintro rfl
    exact ⟨dialectStr dl, by simp⟩

/-! ## Claim C8 -/

/-- C8 counterexample: the claim quantifies over every tenant identifier,
but a tenant id containing `:` breaks the prefix-based deletion — the sole
cache entry belongs to tenant `a:postgres`, yet `invalidateUserCache("a")`
removes it, so another tenant's entry is not left unchanged. -/
theorem C8_counterexample :
    invalidateUserCache ("a").data
        [{ tenant := ("a:postgres").data, dialect := .mysql, value := ctxEmptyFix }] = [] ∧
    (({ tenant := ("a:postgres").data, dialect := .mysql, value := ctxEmptyFix }
        : SchemaCacheEntry).tenant ≠ ("a").data) := by
  constructor
  · decide
  · decide

/-- C8 (amended): provided tenant identifiers contain no `:` (system ids
are database UUIDs, which never do), `invalidateUserCache(t)` removes
exactly the entries keyed to tenant `t` across all dialects and leaves
every other tenant's entries in place with their cached values unchanged:
the result is precisely the filter keeping entries of other tenants. -/
theorem C8_amended_invalidate_exact (t : Str) (cache : List SchemaCacheEntry)
    (ht : ':' ∉ t) (hc : ∀ e ∈ cache, ':' ∉ e.tenant) :
    invalidateUserCache t cache = cache.filter (fun e => decide (e.tenant ≠ t)) := by
  unfold invalidateUserCache
  apply List.filter_congr
  intro e he
  have hiff : (List.isPrefixOf (("schema:").data ++ t ++ (":").data)
      (cacheKeyOf e.tenant e.dialect)) = true ↔ e.tenant = t := by
    rw [List.isPrefixOf_iff_prefix]
    exact cacheKey_prefix_iff t e.tenant e.dialect ht (hc e he)
  cases hb : List.isPrefixOf (("schema:").data ++ t ++ (":").data)
      (cacheKeyOf e.tenant e.dialect) with
  | true =>
    have he2 : e.tenant = t := hiff.1 hb
    simp [he2]
  | false =>
    have hne : e.tenant ≠ t := fun he2 => by rw [hiff.2 he2] at hb; cases hb
    simp [hne]

/-- Witness for the amended C8: invalidating `u1` removes its entry and
keeps `u2`'s entry with its value. -/
theorem C8_witness :
    invalidateUserCache ("u1").data
        [{ tenant := ("u1").data, dialect := .postgres, value := ctxEmptyFix },
         { tenant := ("u2").data, dialect := .mysql, value := ctxEmptyFix }] =
      [{ tenant := ("u2").data, dialect := .mysql, value := ctxEmptyFix }] := by
  rw [C8_amended_invalidate_exact ("u1").data _ (by decide) (by decide)]
  decide

/-! ## Claim C5 -/

/-- C5 counterexample: validating `SELECT * FROM users WHERE email = 'x'`
against `users(id, email)` with no index on `email` does produce the
`SELECT *` warning, but `suggestedIndexes` is `undefined` — the claimed
index statement is NOT suggested, because the equality column is not
table-qualified and `analyzePerformance` skips unqualified columns. -/
theorem C5_counterexample :
    ((validateQuery c5sql .postgres usersCtx).warnings.contains
        ("SELECT * detected; prefer explicit columns for better performance").data = true)
    ∧ (validateQuery c5sql .postgres usersCtx).suggestedIndexes = none := by
  constructor
  · decide
  · decide

/-- C5 (amended): the validation yields the `SELECT *` warning but no
suggested index at all for the unqualified predicate; the table-qualified
variant `WHERE users.email = 'x'` yields both the warning and exactly the
suggested statement `CREATE INDEX idx_users_email ON users(email);`. -/
theorem C5_amended_unqualified_no_index :
    ((validateQuery c5sql .postgres usersCtx).warnings.contains
        ("SELECT * detected; prefer explicit columns for better performance").data = true)
    ∧ (validateQuery c5sql .postgres usersCtx).suggestedIndexes = none
    ∧ ((validateQuery c5sqlQualified .postgres usersCtx).warnings.contains
        ("SELECT * detected; prefer explicit columns for better performance").data = true)
    ∧ (validateQuery c5sqlQualified .postgres usersCtx).suggestedIndexes =
        some [("CREATE INDEX idx_users_email ON users(email);").data] := by
  refine ⟨by decide, by decide, by decide, by decide⟩

/-! ## Claim C9 -/

/-- C9: the validator is deterministic and side-effect-free — a second
invocation on the same `(sql, dialect, schemaContext)` triple (including on
the context handed back by the first invocation) returns a ValidationResult
that agrees on `isValid`, `errors`, `warnings` and `suggestedIndexes`, and
no invocation changes the schema context. -/
theorem C9_validator_deterministic_pure (query : Str) (databaseType : Dialect)
    (ctx : SchemaContext) :
    (runValidate query databaseType ctx).2 = ctx ∧
    (runValidate query databaseType ((runValidate query databaseType ctx).2)).2 = ctx ∧
    (runValidate query databaseType ((runValidate query databaseType ctx).2)).1.isValid =
      (runValidate query databaseType ctx).1.isValid ∧
    (runValidate query databaseType ((runValidate query databaseType ctx).2)).1.errors =
      (runValidate query databaseType ctx).1.errors ∧
    (runValidate query databaseType ((runValidate query databaseType ctx).2)).1.warnings =
      (runValidate query databaseType ctx).1.warnings ∧
    (runValidate query databaseType ((runValidate query databaseType ctx).2)).1.suggestedIndexes =
      (runValidate query databaseType ctx).1.suggestedIndexes :=
  ⟨rfl, rfl, rfl, rfl, rfl, rfl⟩

/-! ## parseSchema lemmas -/

theorem updateFirst_map {α β : Type} (p : α → Bool) (f : α → α) (h : α → β)
    (hh : ∀ a, h (f a) = h a) : ∀ l : List α, (updateFirst p f l).map h = l.map h := by
  intro l
  induction l with
  | nil => rfl
  | cons a rest ih =>
    unfold updateFirst
    by_cases hp : p a
    · rw [if_pos hp]
      simp only [List.map_cons, hh a]
    · rw [if_neg hp]
      simp only [List.map_cons, ih]

theorem addConstraint_shape (st : List TableMetadata × List RelationshipMetadata)
    (c : RawConstraintRow) :
    ((addConstraint st c).1).map tableShape = st.1.map tableShape := by
  unfold addConstraint
  cases st.1.find? (fun t => decide (t.tableName = c.table_name)) with
  | none => rfl
  | some table =>
    dsimp only
    cases table.columns.find? (fun col => decide (col.columnName = c.column_name)) with
    | none => rfl
    | some col =>
      dsimp only
      by_cases h1 : c.constraint_type = ("PRIMARY KEY").data
      · rw [if_pos h1]
        dsimp only
        exact updateFirst_map (fun t => decide (t.tableName = c.table_name))
          (fun t => { t with primaryKey := some (t.primaryKey.getD [] ++ [c.column_name]) })
          tableShape (fun t => rfl) st.1
      · rw [if_neg h1]
        by_cases h2 : c.constraint_type = ("UNIQUE").data
        · rw [if_pos h2]
          dsimp only
          refine updateFirst_map _ _ tableShape (fun t => ?_) st.1
          unfold tableShape
          exact congrArg (Prod.mk t.tableName)
            (updateFirst_map (fun col => decide (col.columnName = c.column_name))
              (fun col => { col with isUnique := true })
              (fun c2 => c2.columnName) (fun c2 => rfl) t.columns)
        · rw [if_neg h2]
          by_cases h3 : c.constraint_type = ("FOREIGN KEY").data
          · rw [if_pos h3]
            dsimp only
            refine updateFirst_map _ _ tableShape (fun t => ?_) st.1
            unfold tableShape
            exact congrArg (Prod.mk t.tableName)
              (updateFirst_map (fun col => decide (col.columnName = c.column_name))
                (fun col => { col with
                                isForeignKey := true,
                                foreignKeyReference := c.referenced_table_name })
                (fun c2 => c2.columnName) (fun c2 => rfl) t.columns)
          · rw [if_neg h3]

theorem fromEndpointOK_of_shape_eq (ts1 ts2 : List TableMetadata)
    (hsh : ts1.map tableShape = ts2.map tableShape) (r : RelationshipMetadata)
    (hok : fromEndpointOK ts1 r) : fromEndpointOK ts2 r := by
  obtain ⟨t, ht, hname, col, hcol, hcname⟩ := hok
  have hsmem : tableShape t ∈ ts2.map tableShape := by
    rw [← hsh]
    exact List.mem_map_of_mem tableShape ht
  obtain ⟨t2, ht2, hts⟩ := List.mem_map.1 hsmem
  unfold tableShape at hts
  rw [Prod.mk.injEq] at hts
  obtain ⟨hn, hcols⟩ := hts
  refine ⟨t2, ht2, hn.trans hname, ?_⟩
  have hcmem : col.columnName ∈ t2.columns.map (fun c => c.columnName) := by
    rw [hcols]
    exact List.mem_map_of_mem _ hcol
  obtain ⟨col2, hc2, hceq⟩ := List.mem_map.1 hcmem
  exact ⟨col2, hc2, hceq.trans hcname⟩

theorem addConstraint_rel_sub (st : List TableMetadata × List RelationshipMetadata)
    (c : RawConstraintRow) (r : RelationshipMetadata)
    (hr : r ∈ (addConstraint st c).2) : r ∈ st.2 ∨ fromEndpointOK st.1 r := by
  unfold addConstraint at hr
  cases hft : st.1.find? (fun t => decide (t.tableName = c.table_name)) with
  | none => rw [hft] at hr; exact Or.inl hr
  | some table =>
    rw [hft] at hr
    dsimp only at hr
    cases hfc : table.columns.find? (fun col => decide (col.columnName = c.column_name)) with
    | none => rw [hfc] at hr; exact Or.inl hr
    | some col =>
      rw [hfc] at hr
      dsimp only at hr
      have htmem : table ∈ st.1 := List.mem_of_find?_eq_some hft
      have htname : table.tableName = c.table_name := by
        have := List.find?_some hft
        exact of_decide_eq_true this
      have hcmem : col ∈ table.columns := List.mem_of_find?_eq_some hfc
      have hcname : col.columnName = c.column_name := by
        have := List.find?_some hfc
        exact of_decide_eq_true this
      by_cases h1 : c.constraint_type = ("PRIMARY KEY").data
      · rw [if_pos h1] at hr; exact Or.inl hr
      · rw [if_neg h1] at hr
        by_cases h2 : c.constraint_type = ("UNIQUE").data
        · rw [if_pos h2] at hr; exact Or.inl hr
        · rw [if_neg h2] at hr
          by_cases h3 : c.constraint_type = ("FOREIGN KEY").data
          · rw [if_pos h3] at hr
            cases hrt : c.referenced_table_name with
            | none => rw [hrt] at hr; exact Or.inl hr
            | some rt =>
              rw [hrt] at hr
              rcases List.mem_append.1 hr with hold | hnew
              · exact Or.inl hold
              · have hre := List.mem_singleton.1 hnew
                refine Or.inr ⟨table, htmem, ?_, col, hcmem, ?_⟩
                · rw [hre]; exact htname
                · rw [hre]; exact hcname
          · rw [if_neg h3] at hr; exact Or.inl hr

theorem constraints_fold_inv (cs : List RawConstraintRow) :
    ∀ st : List TableMetadata × List RelationshipMetadata,
      (∀ r ∈ st.2, fromEndpointOK st.1 r) →
      ∀ r ∈ (cs.foldl addConstraint st).2, fromEndpointOK (cs.foldl addConstraint st).1 r := by
  induction cs with
  | nil => intro st h r hr; exact h r hr
  | cons c cs ih =>
    intro st h
    rw [List.foldl_cons]
    apply ih
    intro r hr
    rcases addConstraint_rel_sub st c r hr with hold | hnew
    · exact fromEndpointOK_of_shape_eq st.1 (addConstraint st c).1
        (addConstraint_shape st c).symm r (h r hold)
    · exact fromEndpointOK_of_shape_eq st.1 (addConstraint st c).1
        (addConstraint_shape st c).symm r hnew

/-! ## Claim C3 -/

/-- C3 counterexample: `parseSchema` never checks the referenced
(`toTable`) endpoint — a foreign-key constraint on a present column that
references the absent table `ghost` produces a relationship whose `toTable`
names no table of the produced context. -/
theorem C3_counterexample :
    ∃ r ∈ (parseSchema ghostPayload .postgres 0).relationships,
      ∀ t ∈ (parseSchema ghostPayload .postgres 0).tables, t.tableName ≠ r.toTable := by
  decide

/-- C3 (amended): every relationship produced by `parseSchema` has its
`fromTable`/`fromColumn` endpoint present — the table is in `tables` and
the column in that table's columns; the `toTable`/`toColumn` endpoint is
recorded unchecked and may be absent. -/
theorem C3_amended_relationship_from_endpoint (payload : RawSchemaPayload)
    (databaseType : Dialect) (now : Nat) (r : RelationshipMetadata)
    (hr : r ∈ (parseSchema payload databaseType now).relationships) :
    ∃ t ∈ (parseSchema payload databaseType now).tables,
      t.tableName = r.fromTable ∧ ∃ col ∈ t.columns, col.columnName = r.fromColumn := by
  have hmain := constraints_fold_inv payload.constraints
    ((payload.schema.foldl addSchemaRow []), ([] : List RelationshipMetadata))
    (fun r2 hr2 => absurd hr2 (List.not_mem_nil r2))
  exact hmain r hr

/-- Witness for the amended C3 at the concrete ghost payload. -/
theorem C3_witness :
    ghostRel ∈ (parseSchema ghostPayload .postgres 0).relationships ∧
    ∃ t ∈ (parseSchema ghostPayload .postgres 0).tables,
      t.tableName = ghostRel.fromTable ∧
        ∃ col ∈ t.columns, col.columnName = ghostRel.fromColumn :=
  ⟨by decide, C3_amended_relationship_from_endpoint ghostPayload .postgres 0 ghostRel (by decide)⟩

/-! ## addConnection lemmas -/

theorem addConnection_ok_inv (key : Nat) (iv : List Nat) (u lbl url : Str) (σ : MetaState)
    (row : ConnRow) (σ2 : MetaState)
    (h : addConnection key iv u lbl url σ = .ok (row, σ2)) :
    (σ.filter (fun r => decide (r.user_id = u))).length < 5 ∧
    row = { user_id := u, label := lbl,
            encrypted_url := encrypt key iv (url.map Char.toNat),
            is_active := decide ((σ.filter (fun r => decide (r.user_id = u))).length = 0) } ∧
    σ2 = σ ++ [row] := by
  unfold addConnection at h
  by_cases hcnt : 5 ≤ (σ.filter (fun r => decide (r.user_id = u))).length
  · rw [if_pos hcnt] at h; cases h
  · rw [if_neg hcnt] at h
    try dsimp only at h
    have h2 := Except.ok.inj h
    cases h2
    exact ⟨by omega, rfl, rfl⟩

theorem rowsOf_append_single (u : Str) (σ : MetaState) (row : ConnRow) :
    rowsOf u (σ ++ [row]) = rowsOf u σ ++ (if row.user_id = u then [row] else []) := by
  unfold rowsOf
  rw [List.filter_append]
  congr 1
  by_cases h : row.user_id = u
  · rw [if_pos h]
    simp [List.filter, h]
  · rw [if_neg h]
    simp [List.filter, h]

theorem runAdds_inv (key : Nat) (iv : List Nat) (u : Str) (reqs : List (Str × Str × Str)) :
    ∀ σ0 : MetaState,
      (rowsOf u σ0).map (fun r => r.is_active) = activePattern (rowsOf u σ0).length →
      (rowsOf u (runAdds key iv reqs σ0)).map (fun r => r.is_active) =
        activePattern (rowsOf u (runAdds key iv reqs σ0)).length := by
  induction reqs with
  | nil => intro σ0 h; exact h
  | cons req reqs ih =>
    intro σ0 h
    show (rowsOf u (runAdds key iv reqs
        (match addConnection key iv req.1 req.2.1 req.2.2 σ0 with
         | .ok p => p.2
         | .error _ => σ0))).map (fun r => r.is_active) = _
    apply ih
    cases hstep : addConnection key iv req.1 req.2.1 req.2.2 σ0 with
    | error e => exact h
    | ok p =>
      obtain ⟨row, σ2⟩ := p
      obtain ⟨hcnt, hrow, hσ2⟩ := addConnection_ok_inv key iv req.1 req.2.1 req.2.2 σ0 row σ2 hstep
      subst hσ2
      dsimp only
      rw [rowsOf_append_single]
      by_cases huser : row.user_id = u
      · rw [if_pos huser]
        have hu2 : req.1 = u := by rw [hrow] at huser; exact huser
        have hcnt0 : (σ0.filter (fun r => decide (r.user_id = req.1))).length
            = (rowsOf u σ0).length := by rw [hu2]; rfl
        rw [List.map_append, h]
        simp only [List.map_cons, List.map_nil, List.length_append, List.length_cons,
          List.length_nil]
        cases hn : (rowsOf u σ0).length with
        | zero =>
          have hact : row.is_active = true := by
            rw [hrow]
            show decide ((σ0.filter (fun r => decide (r.user_id = req.1))).length = 0) = true
            rw [hcnt0, hn]
            decide
          rw [hact]
          rfl
        | succ m =>
          have hact : row.is_active = false := by
            rw [hrow]
            show decide ((σ0.filter (fun r => decide (r.user_id = req.1))).length = 0) = false
            rw [hcnt0, hn]
            simp
          rw [hact]
          show activePattern (m + 1) ++ [false] = activePattern (m + 1 + (0 + 1))
          show (true :: List.replicate m false) ++ [false] = activePattern (m + 1 + (0 + 1))
          have : m + 1 + (0 + 1) = m + 2 := by omega
          rw [this]
          show (true :: List.replicate m false) ++ [false] = true :: List.replicate (m + 1) false
          rw [List.cons_append, List.replicate_succ' m false]
      · rw [if_neg huser]
        rw [List.append_nil]
        exact h

/-! ## Claim C10 -/

/-- C10: a successful `addConnection` inserts the new row with
`isActive = true` exactly when the tenant had zero stored connections at
call time (and `false` on every later successful add); consequently, over
any sequence of `addConnection` requests, the tenant's rows always show the
first-added-row-active pattern — only the first-ever added connection is
activated automatically. -/
theorem C10_addConnection_first_active (key : Nat) (iv : List Nat) (u lbl url : Str)
    (σ : MetaState) (row : ConnRow) (σ2 : MetaState)
    (hcall : addConnection key iv u lbl url σ = .ok (row, σ2)) :
    (row.is_active = true ↔ rowsOf u σ = []) ∧ row.user_id = u ∧ σ2 = σ ++ [row] ∧
    (∀ reqs σ0,
      (rowsOf u σ0).map (fun r => r.is_active) = activePattern (rowsOf u σ0).length →
      (rowsOf u (runAdds key iv reqs σ0)).map (fun r => r.is_active) =
        activePattern (rowsOf u (runAdds key iv reqs σ0)).length) := by
  obtain ⟨hcnt, hrow, hσ2⟩ := addConnection_ok_inv key iv u lbl url σ row σ2 hcall
  refine ⟨?_, by rw [hrow], hσ2, fun reqs σ0 h => runAdds_inv key iv u reqs σ0 h⟩
  rw [hrow]
  show decide ((σ.filter (fun r => decide (r.user_id = u))).length = 0) = true
      ↔ rowsOf u σ = []
  rw [decide_eq_true_iff]
  exact List.length_eq_zero

/-- Witness for C10: the first add for a fresh tenant is stored active. -/
theorem C10_witness :
    demoRow.is_active = true ↔ rowsOf ("u").data ([] : MetaState) = [] :=
  (C10_addConnection_first_active 5 ivDemo ("u").data ("l").data ("postgres://x").data
    [] demoRow [demoRow] (by decide)).1

end SchemaViz
